import Mathlib

/-!
Verification development for the transactional core of the
payment-multicurrency backend (Go). The Go services are shallowly embedded
as pure Lean functions over an explicit database state: SQL tables become
lists of rows, SQL statements become list transformations returning affected
row counts, and a service method that runs inside RunInTx becomes a function
returning Except, where an error result means the surrounding database
transaction rolled back (state discarded). Monetary amounts are Int micros,
exactly as the BIGINT columns. UUIDs are abstracted as Nat identifiers; the
stable bytewise UUID ordering used for lock ordering is mirrored by the Nat
order. Statuses, currencies and directions stay Strings, as in the source.
-/

namespace PayMC

/-- Commit direction constant from internal/domain/constants.go. -/
def DirectionDebit : String := "debit"

/-- Credit direction constant from internal/domain/constants.go. -/
def DirectionCredit : String := "credit"

/-- Transaction type constants from internal/domain/constants.go. -/
def TxTypeTransfer : String := "transfer"

/-- Transaction type constant for FX exchange. -/
def TxTypeExchange : String := "exchange"

/-- Transaction type constant for payouts. -/
def TxTypePayout : String := "payout"

/-- Transaction type constant for deposits. -/
def TxTypeDeposit : String := "deposit"

/-- Transaction status constant. -/
def TxStatusCompleted : String := "COMPLETED"

/-- Transaction status constant. -/
def TxStatusFailed : String := "FAILED"

/-- Transaction status constant. -/
def TxStatusPending : String := "PENDING"

/-- Transaction status constant. -/
def TxStatusProcessing : String := "PROCESSING"

/-- Transaction status constant. -/
def TxStatusReversed : String := "REVERSED"

/-- Payout status constant. -/
def PayoutStatusPending : String := "PENDING"

/-- Payout status constant. -/
def PayoutStatusProcessing : String := "PROCESSING"

/-- Payout status constant. -/
def PayoutStatusCompleted : String := "COMPLETED"

/-- Payout status constant. -/
def PayoutStatusFailed : String := "FAILED"

/-- Payout status constant. -/
def PayoutStatusManualReview : String := "MANUAL_REVIEW"

/-- System liquidity account ids (domain.SystemAccountUSD and friends are
fixed UUID literals seeded by migration 000003; we map them to fixed Nat
identifiers). -/
def SystemAccountUSD : Nat := 100

/-- System liquidity account id for EUR. -/
def SystemAccountEUR : Nat := 101

/-- System liquidity account id for GBP. -/
def SystemAccountGBP : Nat := 102

/-- Error kinds surfaced by the Go services (distinct Go error values and
wrapped pg errors, abstracted to a closed enumeration). -/
inductive SvcError where
  | invalidAmount
  | referenceRequired
  | sameAccountTransfer
  | currencyMismatch
  | sameCurrencyExchange
  | insufficientFunds
  | invalidTransition
  | rowsMismatch
  | notFound
  | payloadMismatch
  | inProgress
  | hashMismatch
  | unsupportedState
  | unsupportedCurrency
  | other (msg : String)
  deriving Repr, DecidableEq

/-- Metadata JSON payloads attached to transactions and audit rows,
modelled structurally (the code only ever writes one of these shapes). -/
inductive Meta where
  | none
  | exchange (fromCurrency toCurrency : String) (targetAmount : Int)
  | dest (iban name : String)
  | reason (msg : String)
  | webhook (reference accountID : String)
  deriving Repr, DecidableEq

/-- Row of the accounts table: integer micros balance, locked amount,
ISO currency. -/
structure Account where
  id : Nat
  currency : String
  balance : Int
  lockedMicros : Int
  deriving Repr, DecidableEq

/-- Decimal value in the style of shopspring/decimal: an integer
coefficient times ten to an integer exponent. All the arithmetic the money
code performs (NewFromInt, Mul, the exact division by one million, IntPart)
is value-faithful in this representation. -/
structure Dec where
  value : Int
  exp : Int
  deriving Repr, DecidableEq

/-- Row of the transactions table. -/
structure Txn where
  id : Nat
  amount : Int
  currency : String
  type : String
  status : String
  referenceID : String
  fxRate : Option Dec
  metadata : Meta
  deriving Repr, DecidableEq

/-- Row of the append-only entries ledger table. -/
structure Entry where
  id : Nat
  transactionID : Nat
  accountID : Nat
  amount : Int
  direction : String
  deriving Repr, DecidableEq

/-- Row of the payouts table. -/
structure PayoutRow where
  id : Nat
  transactionID : Nat
  accountID : Nat
  amountMicros : Int
  currency : String
  status : String
  gatewayRef : Option String
  deriving Repr, DecidableEq

/-- Row of the append-only audit_log table (prev_state and next_state are
nullable text, written through textParam which maps the empty string to
NULL). -/
structure AuditRow where
  entityType : String
  entityID : Nat
  actorID : Option Nat
  action : String
  prevState : Option String
  nextState : Option String
  metadata : Meta
  deriving Repr, DecidableEq

/-- The database state shared by all services. -/
structure DB where
  accounts : List Account
  transactions : List Txn
  entries : List Entry
  payouts : List PayoutRow
  auditLog : List AuditRow
  deriving Repr, DecidableEq

/-- Helper for service.textParam: empty string becomes NULL. -/
def textParam (v : String) : Option String :=
  if v = "" then Option.none else some v

/-- Query CheckTransactionIdempotency: select the transaction by
reference_id (unique-constrained). -/
def checkTransactionIdempotency (db : DB) (ref : String) : Option Txn :=
  db.transactions.find? (fun t => t.referenceID = ref)

/-- Query GetTransactionStatusForUpdate: select status by id under a row
lock. -/
def getTransactionStatusForUpdate (db : DB) (txid : Nat) : Option String :=
  (db.transactions.find? (fun t => t.id = txid)).map (fun t => t.status)

/-- Query UpdateTransactionStatus: set status on the matching row,
returning the affected row count. -/
def updateTransactionStatus (db : DB) (status : String) (txid : Nat) :
    DB × Nat :=
  ({ db with
      transactions :=
        db.transactions.map (fun t =>
          if t.id = txid then { t with status := status } else t) },
    db.transactions.countP (fun t => t.id = txid))

/-- Query CreateTransaction: append a fresh transaction row. -/
def createTransaction (db : DB) (t : Txn) : DB :=
  { db with transactions := db.transactions ++ [t] }

/-- Query CreateEntry: append a fresh ledger entry. -/
def createEntry (db : DB) (e : Entry) : DB :=
  { db with entries := db.entries ++ [e] }

/-- Query InsertAuditLog through AuditService.Write. -/
def insertAuditLog (db : DB) (row : AuditRow) : DB :=
  { db with auditLog := db.auditLog ++ [row] }

/-- Query UpdateAccountBalance: balance := balance + delta on the matching
account, returning the affected row count. -/
def updateAccountBalance (db : DB) (delta : Int) (accountID : Nat) :
    DB × Nat :=
  ({ db with
      accounts :=
        db.accounts.map (fun a =>
          if a.id = accountID then { a with balance := a.balance + delta }
          else a) },
    db.accounts.countP (fun a => a.id = accountID))

/-- Query LockAccountFunds: locked_micros := locked_micros + amount. -/
def lockAccountFunds (db : DB) (amount : Int) (accountID : Nat) :
    DB × Nat :=
  ({ db with
      accounts :=
        db.accounts.map (fun a =>
          if a.id = accountID then
            { a with lockedMicros := a.lockedMicros + amount }
          else a) },
    db.accounts.countP (fun a => a.id = accountID))

/-- Query ReleaseAccountFunds: locked_micros := locked_micros - amount. -/
def releaseAccountFunds (db : DB) (amount : Int) (accountID : Nat) :
    DB × Nat :=
  ({ db with
      accounts :=
        db.accounts.map (fun a =>
          if a.id = accountID then
            { a with lockedMicros := a.lockedMicros - amount }
          else a) },
    db.accounts.countP (fun a => a.id = accountID))

/-- Query ReleaseAccountFundsSafe: release only where locked_micros is at
least the amount, returning affected rows. -/
def releaseAccountFundsSafe (db : DB) (amount : Int) (accountID : Nat) :
    DB × Nat :=
  ({ db with
      accounts :=
        db.accounts.map (fun a =>
          if a.id = accountID ∧ amount ≤ a.lockedMicros then
            { a with lockedMicros := a.lockedMicros - amount }
          else a) },
    db.accounts.countP (fun a => a.id = accountID ∧ amount ≤ a.lockedMicros))

/-- Query DeductLockedFunds: subtract the amount from both locked_micros
and balance on the matching account. -/
def deductLockedFunds (db : DB) (amount : Int) (accountID : Nat) :
    DB × Nat :=
  ({ db with
      accounts :=
        db.accounts.map (fun a =>
          if a.id = accountID then
            { a with
                lockedMicros := a.lockedMicros - amount
                balance := a.balance - amount }
          else a) },
    db.accounts.countP (fun a => a.id = accountID))

/-- Query UpdatePayoutStatus: set status and gateway_ref on the matching
payout, returning affected rows. -/
def updatePayoutStatus (db : DB) (status : String)
    (gatewayRef : Option String) (payoutID : Nat) : DB × Nat :=
  ({ db with
      payouts :=
        db.payouts.map (fun p =>
          if p.id = payoutID then
            { p with status := status, gatewayRef := gatewayRef }
          else p) },
    db.payouts.countP (fun p => p.id = payoutID))

/-- Query GetPayout: select the payout row by id. -/
def getPayout (db : DB) (payoutID : Nat) : Option PayoutRow :=
  db.payouts.find? (fun p => p.id = payoutID)

/-- Query GetAccountBalanceAndCurrency / GetAccountBalanceAndLocked /
LockAccount: select the account row (FOR UPDATE is a no-op in this
sequential model, but a missing row is still an error at the call sites). -/
def getAccount (db : DB) (accountID : Nat) : Option Account :=
  db.accounts.find? (fun a => a.id = accountID)

/-- Helper requireExactlyOne from internal/service/utils.go. -/
def requireExactlyOne (rows : Nat) : Except SvcError Unit :=
  if rows = 1 then .ok () else .error .rowsMismatch

/-- The legal transition table transactionTransitions from
internal/service/transaction_state.go, flattened to pairs. -/
def transactionTransitions : List (String × List String) :=
  [ ("PENDING", ["PROCESSING", "FAILED"]),
    ("PROCESSING", ["PENDING", "COMPLETED", "FAILED", "REVERSED"]),
    ("COMPLETED", ["REVERSED"]),
    ("FAILED", ["PROCESSING", "REVERSED"]),
    ("REVERSED", []) ]

/-- Whitespace trimming at the character level (strings.TrimSpace);
spelled out on the character list so that the kernel can evaluate it. -/
def strTrim (s : String) : List Char :=
  ((s.data.dropWhile Char.isWhitespace).reverse.dropWhile
    Char.isWhitespace).reverse

/-- Function normalizeState: trim then uppercase. -/
def normalizeState (state : String) : String :=
  String.mk ((strTrim state).map Char.toUpper)

/-- Function canTransition: membership in the legal transition table after
normalization. -/
def canTransition (current next : String) : Bool :=
  match transactionTransitions.find?
      (fun row => row.fst = normalizeState current) with
  | Option.none => false
  | some row => row.snd.contains (normalizeState next)

/-- Function transitionTransactionState: lock the row, read the current
status, no-op on equality, reject illegal transitions, update exactly one
row and append the audit record. An error return makes the surrounding
database transaction roll back (the callers discard the state). -/
def transitionTransactionState (db : DB) (transactionID : Nat)
    (nextState : String) (actorID : Option Nat) (action : String)
    (metadata : Meta) : Except SvcError DB :=
  match getTransactionStatusForUpdate db transactionID with
  | Option.none => .error .notFound
  | some currentState =>
    if normalizeState currentState = normalizeState nextState then .ok db
    else if ¬ canTransition currentState nextState then
      .error .invalidTransition
    else
      match updateTransactionStatus db nextState transactionID with
      | (db1, rows) =>
        if rows ≠ 1 then .error .rowsMismatch
        else
          .ok (insertAuditLog db1
            { entityType := "transaction", entityID := transactionID,
              actorID := actorID, action := action,
              prevState := textParam currentState,
              nextState := textParam nextState, metadata := metadata })

/-- Money from internal/domain/money.go: integer micros plus an ISO 4217
currency code. -/
structure Money where
  amount : Int
  currency : String
  deriving Repr, DecidableEq

/-- Constructor NewMoney. -/
def NewMoney (amount : Int) (currency : String) : Money :=
  { amount := amount, currency := currency }

/-- Decimal constructor NewFromInt. -/
def decNewFromInt (n : Int) : Dec :=
  { value := n, exp := 0 }

/-- Decimal multiplication (shopspring Mul): multiply coefficients, add
exponents. -/
def decMul (a b : Dec) : Dec :=
  { value := a.value * b.value, exp := a.exp + b.exp }

/-- Exact integer part of a decimal: rescale to exponent zero with
big.Int Quo semantics, which truncates toward zero. This is the unbounded
value shopspring IntPart computes before handing it to big.Int.Int64. -/
def Dec.intPartExact (d : Dec) : Int :=
  if 0 ≤ d.exp then d.value * 10 ^ d.exp.toNat
  else d.value.tdiv (10 ^ (-d.exp).toNat)

/-- Conversion big.Int.Int64 as the Go runtime performs it: take the low
64 bits of the absolute value, reinterpret them as a two-complement
int64, and negate when the sign is negative (int64 negation itself wraps
at the minimum value). A value outside the int64 range silently wraps. -/
def bigIntToInt64 (n : Int) : Int :=
  let u : Nat := n.natAbs % 2 ^ 64
  let v : Int := if u < 2 ^ 63 then (u : Int) else (u : Int) - 2 ^ 64
  if n < 0 then (if v = -(2 ^ 63) then v else -v) else v

/-- Decimal IntPart as the Go caller receives it: the exact integer part
pushed through big.Int.Int64, wrapping outside the int64 range. -/
def Dec.intPart (d : Dec) : Int :=
  bigIntToInt64 d.intPartExact

/-- Method Money.ToDecimal: NewFromInt(amount).Div(NewFromInt 1000000).
The division by one million is exact (micros have six decimal places), so
its value is amount times ten to the minus six, which this representation
captures exactly. -/
def Money.toDecimal (m : Money) : Dec :=
  { value := m.amount, exp := -6 }

/-- Function FromDecimal: multiply by one million and take the integer
part. -/
def fromDecimal (d : Dec) : Int :=
  (decMul d (decNewFromInt 1000000)).intPart

/-- Method Money.Convert: multiply the decimal value by the FX rate and
convert back to micros, switching the currency code. -/
def Money.convert (m : Money) (targetCurrency : String) (rate : Dec) :
    Money :=
  { amount := fromDecimal (decMul m.toDecimal rate),
    currency := targetCurrency }

/-- Exact rational value denoted by a decimal. -/
def decVal (d : Dec) : ℚ :=
  (d.value : ℚ) * 10 ^ d.exp

/-- Truncation toward zero of a rational (the rounding mode the spec
prescribes for FX amounts). -/
def truncTowardZero (q : ℚ) : Int :=
  if q < 0 then ⌈q⌉ else ⌊q⌋

/-- The five canonical transaction statuses enforced by the
transactions_status_ck check constraint of migration 000012. -/
def txStatusList : List String :=
  ["PENDING", "PROCESSING", "COMPLETED", "FAILED", "REVERSED"]

/-- Legal (source, target) pairs of the state machine, as literal pairs. -/
def legalTransitionPairs : List (String × String) :=
  (transactionTransitions.map
    (fun row => row.snd.map (fun nxt => (row.fst, nxt)))).flatten

/-- Canonical statuses are fixed points of normalizeState. -/
theorem norm_canonical : ∀ s ∈ txStatusList, normalizeState s = s := by
  decide

/-- Canonical statuses are nonempty strings. -/
theorem canonical_ne_empty : ∀ s ∈ txStatusList, s ≠ "" := by
  decide

/-- On canonical statuses, canTransition agrees with literal membership in
the flattened legal-pair list. -/
theorem canTransition_iff_mem :
    ∀ c ∈ txStatusList, ∀ n ∈ txStatusList,
      (canTransition c n = true ↔ (c, n) ∈ legalTransitionPairs) := by
  decide

/-- No legal transition is a self-loop. -/
theorem legal_pairs_ne : ∀ p ∈ legalTransitionPairs, p.fst ≠ p.snd := by
  decide

/-- Truncation toward zero of an integer value is that integer. -/
theorem truncTowardZero_intCast (n : Int) :
    truncTowardZero ((n : ℚ)) = n := by
  unfold truncTowardZero
  split
  · exact Int.ceil_intCast n
  · exact Int.floor_intCast n

/-- Integer tdiv by a positive natural denominator is exact truncation
toward zero of the rational quotient. -/
theorem tdiv_natCast_eq_trunc (n : Int) (d : Nat) (hd : 0 < d) :
    n.tdiv (d : Int) = truncTowardZero ((n : ℚ) / (d : ℚ)) := by
  rcases le_or_lt 0 n with hn | hn
  · rw [Int.tdiv_eq_ediv hn (by exact_mod_cast hd.le)]
    have hq : (0 : ℚ) ≤ (n : ℚ) / (d : ℚ) := by positivity
    rw [truncTowardZero, if_neg (not_lt.mpr hq),
      Rat.floor_intCast_div_natCast]
  · have h1 : n.tdiv (d : Int) = -((-n).tdiv (d : Int)) := by
      rw [Int.neg_tdiv, neg_neg]
    rw [h1, Int.tdiv_eq_ediv (by omega) (by exact_mod_cast hd.le)]
    have hq : ((n : ℚ) / (d : ℚ)) < 0 := by
      apply div_neg_of_neg_of_pos
      · exact_mod_cast hn
      · exact_mod_cast hd
    rw [truncTowardZero, if_pos hq]
    have h2 : ((n : ℚ) / (d : ℚ)) = -(((-n : ℤ) : ℚ) / (d : ℚ)) := by
      push_cast; ring
    rw [h2, Int.ceil_neg, Rat.floor_intCast_div_natCast]

/-- The exact integer part of a decimal is the truncation toward zero of
its exact rational value. -/
theorem Dec.intPartExact_eq_trunc (d : Dec) :
    d.intPartExact = truncTowardZero (decVal d) := by
  unfold Dec.intPartExact decVal
  split
  · next hle =>
    have hcast : (10 : ℚ) ^ d.exp = ((10 : ℤ) ^ d.exp.toNat : ℚ) := by
      nth_rewrite 1 [← Int.toNat_of_nonneg hle]
      rw [zpow_natCast]
      push_cast
      ring
    rw [hcast]
    rw [show ((d.value : ℚ) * ((10 : ℤ) ^ d.exp.toNat : ℚ)) =
        (((d.value * 10 ^ d.exp.toNat : ℤ) : ℚ)) by push_cast; ring]
    rw [truncTowardZero_intCast]
  · next hlt =>
    push_neg at hlt
    have hk : (0 : Nat) < 10 ^ (-d.exp).toNat := by positivity
    have hcast : ((10 ^ (-d.exp).toNat : ℕ) : ℤ) =
        (10 : ℤ) ^ (-d.exp).toNat := by
      exact_mod_cast rfl
    rw [← hcast, tdiv_natCast_eq_trunc _ _ hk]
    congr 1
    have hexp : d.exp = -((-d.exp).toNat : ℤ) := by omega
    nth_rewrite 2 [hexp]
    rw [zpow_neg, zpow_natCast]
    push_cast
    field_simp

/-- big.Int.Int64 is the identity inside the int64 range. -/
theorem bigIntToInt64_of_range (n : Int) (h1 : -(2 ^ 63) ≤ n)
    (h2 : n < 2 ^ 63) : bigIntToInt64 n = n := by
  have p63 : (2 : Int) ^ 63 = 9223372036854775808 := by norm_num
  have p64 : (2 : Int) ^ 64 = 18446744073709551616 := by norm_num
  have p63n : (2 : Nat) ^ 63 = 9223372036854775808 := by norm_num
  have p64n : (2 : Nat) ^ 64 = 18446744073709551616 := by norm_num
  rw [p63] at h1 h2
  rw [bigIntToInt64, p63, p64, p63n, p64n]
  have habs : n.natAbs % 18446744073709551616 = n.natAbs :=
    Nat.mod_eq_of_lt (by omega)
  simp only [habs]
  by_cases hu : n.natAbs < 9223372036854775808
  · simp only [if_pos hu]
    by_cases hneg : n < 0
    · rw [if_pos hneg, if_neg
        (by omega : ¬ ((n.natAbs : Int)) = -9223372036854775808)]
      omega
    · rw [if_neg hneg]
      omega
  · simp only [if_neg hu]
    have hneg : n < 0 := by omega
    rw [if_pos hneg, if_pos (by omega : ((n.natAbs : Int)) -
      18446744073709551616 = -9223372036854775808)]
    omega

/-- Claim C6 (amended): for every positive source amount in micros and
every exchange rate whose exact truncated product at micro precision
lies within the int64 range, Money.Convert followed by FromDecimal
computes exactly the source amount times the rate truncated toward zero,
with exact decimal arithmetic throughout and no floating point anywhere.
Outside the int64 range the literal claim fails, because FromDecimal
returns IntPart through big.Int.Int64, which silently wraps
(convert_wraps_out_of_range). -/
theorem convert_truncates_toward_zero (amount : Int) (h : 0 < amount)
    (src tgt : String) (rate : Dec)
    (hlo : -(2 ^ 63) ≤ (decMul (decMul (Money.toDecimal ⟨amount, src⟩)
      rate) (decNewFromInt 1000000)).intPartExact)
    (hhi : (decMul (decMul (Money.toDecimal ⟨amount, src⟩) rate)
      (decNewFromInt 1000000)).intPartExact < 2 ^ 63) :
    ((NewMoney amount src).convert tgt rate).amount =
      truncTowardZero ((amount : ℚ) * decVal rate) := by
  show (fromDecimal (decMul (Money.toDecimal ⟨amount, src⟩) rate)) = _
  unfold fromDecimal Dec.intPart
  rw [bigIntToInt64_of_range _ hlo hhi]
  rw [Dec.intPartExact_eq_trunc]
  congr 1
  unfold decVal decMul decNewFromInt Money.toDecimal
  simp only
  have h10 : (10 : ℚ) ≠ 0 := by norm_num
  have he : (-6 : ℤ) + rate.exp + 0 = rate.exp + (-6 : ℤ) := by ring
  rw [he, zpow_add₀ h10]
  push_cast
  have hz : (10 : ℚ) ^ (-6 : ℤ) = ((10 : ℚ) ^ (6 : ℕ))⁻¹ := by
    rw [zpow_neg]
    norm_num
  rw [hz]
  have h6 : (1000000 : ℚ) = 10 ^ (6 : ℕ) := by norm_num
  rw [h6]
  field_simp
  ring

/-- Witness for C6 at the spec scenario: 100 USD at rate 0.92 stays well
inside the int64 range and gives exactly 92 EUR in micros. -/
theorem convert_truncates_toward_zero_witness :
    0 < (100000000 : Int)
    ∧ -(2 ^ 63) ≤ (decMul (decMul
        (Money.toDecimal ⟨100000000, "USD"⟩) { value := 92, exp := -2 })
        (decNewFromInt 1000000)).intPartExact
    ∧ (decMul (decMul (Money.toDecimal ⟨100000000, "USD"⟩)
        { value := 92, exp := -2 })
        (decNewFromInt 1000000)).intPartExact < 2 ^ 63
    ∧ ((NewMoney 100000000 "USD").convert "EUR"
        { value := 92, exp := -2 }).amount =
      truncTowardZero ((100000000 : ℚ) *
        decVal { value := 92, exp := -2 }) :=
  ⟨by decide, by decide, by decide,
   convert_truncates_toward_zero 100000000 (by decide) "USD" "EUR"
     { value := 92, exp := -2 } (by decide) (by decide)⟩

/-- Counterexample to the literal claim C6: at source amount 1 micro and
rate 10 to the 19th, the truncation toward zero of the product is 10^19,
which exceeds the int64 range; Convert returns the silently wrapped
value 10^19 - 2^64 instead, so the computed target amount is not the
truncated product for every positive amount and every rate. -/
theorem convert_wraps_out_of_range :
    truncTowardZero ((1 : ℚ) * decVal { value := 1, exp := 19 }) =
      10 ^ 19
    ∧ ((NewMoney 1 "USD").convert "EUR"
        { value := 1, exp := 19 }).amount = 10 ^ 19 - 2 ^ 64
    ∧ (10 ^ 19 - 2 ^ 64 : Int) ≠ 10 ^ 19 := by
  refine ⟨?_, by decide, by decide⟩
  rw [one_mul, ← Dec.intPartExact_eq_trunc]
  decide

/-- Claim C3: transition is a success no-op when the current status equals
the requested one; every (current, next) pair outside the legal-transition
table yields an error (so the surrounding transaction rolls back, the
status untouched); and every legal pair updates the status exactly once
(affected rows equal one) and appends an audit row with prev_state the old
and next_state the new status. Statuses range over the canonical set
enforced by the transactions_status_ck constraint. -/
theorem transition_state_machine (db : DB) (txid : Nat) (cur next : String)
    (actor : Option Nat) (action : String) (md : Meta)
    (hcur : getTransactionStatusForUpdate db txid = some cur)
    (hone : db.transactions.countP (fun t => t.id = txid) = 1)
    (hc : cur ∈ txStatusList) (hn : next ∈ txStatusList) :
    (cur = next →
      transitionTransactionState db txid next actor action md = .ok db)
    ∧ (cur ≠ next → (cur, next) ∉ legalTransitionPairs →
      transitionTransactionState db txid next actor action md =
        .error .invalidTransition)
    ∧ ((cur, next) ∈ legalTransitionPairs →
      transitionTransactionState db txid next actor action md =
        .ok (insertAuditLog (updateTransactionStatus db next txid).1
          { entityType := "transaction", entityID := txid, actorID := actor,
            action := action, prevState := some cur,
            nextState := some next, metadata := md })
      ∧ (updateTransactionStatus db next txid).2 = 1) := by
  have hnormc : normalizeState cur = cur := norm_canonical cur hc
  have hnormn : normalizeState next = next := norm_canonical next hn
  refine ⟨?_, ?_, ?_⟩
  · intro he
    subst he
    simp [transitionTransactionState, hcur]
  · intro hne hmem
    have hcan : canTransition cur next = false := by
      rcases Bool.eq_false_or_eq_true (canTransition cur next) with h | h
      · exact absurd ((canTransition_iff_mem cur hc next hn).mp h) hmem
      · exact h
    simp [transitionTransactionState, hcur, hnormc, hnormn, hne, hcan]
  · intro hmem
    have hcan : canTransition cur next = true :=
      (canTransition_iff_mem cur hc next hn).mpr hmem
    have hne : cur ≠ next := legal_pairs_ne (cur, next) hmem
    have hcne : cur ≠ "" := canonical_ne_empty cur hc
    have hnne : next ≠ "" := canonical_ne_empty next hn
    refine ⟨?_, ?_⟩
    · simp [transitionTransactionState, hcur, hnormc, hnormn, hne, hcan,
        updateTransactionStatus, hone, textParam, hcne, hnne,
        insertAuditLog]
    · simpa [updateTransactionStatus] using hone

/-- Witness database for the state-machine claim: one PENDING
transaction. -/
def smWitnessDB : DB :=
  { accounts := [],
    transactions :=
      [{ id := 1, amount := 5, currency := "USD", type := "transfer",
         status := "PENDING", referenceID := "r1", fxRate := Option.none,
         metadata := Meta.none }],
    entries := [], payouts := [], auditLog := [] }

/-- Witness for C3: a concrete PENDING to PROCESSING transition on a
one-transaction database updates the row and appends the audit record. -/
theorem transition_state_machine_witness :
    ("PENDING", "PROCESSING") ∈ legalTransitionPairs ∧
    transitionTransactionState smWitnessDB 1 "PROCESSING" Option.none
        "processing_started" Meta.none =
      .ok (insertAuditLog
        (updateTransactionStatus smWitnessDB "PROCESSING" 1).1
        { entityType := "transaction", entityID := 1,
          actorID := Option.none, action := "processing_started",
          prevState := some "PENDING", nextState := some "PROCESSING",
          metadata := Meta.none }) := by
  refine ⟨by decide, ?_⟩
  exact (transition_state_machine smWitnessDB 1 "PENDING" "PROCESSING"
    Option.none "processing_started" Meta.none (by decide) (by decide)
    (by decide) (by decide)).2.2 (by decide) |>.1

/-- Return shape of models.Transaction as the transfer service produces it
(both the success return and mapExistingTransaction fill exactly these
fields). -/
structure RetTxn where
  id : Nat
  amount : Int
  currency : String
  type : String
  status : String
  referenceID : String
  fxRate : Option Dec
  deriving Repr, DecidableEq

/-- Function mapExistingTransaction from internal/service/transfer.go. -/
def mapExistingTransaction (t : Txn) : RetTxn :=
  { id := t.id, amount := t.amount, currency := t.currency,
    type := t.type, status := t.status, referenceID := t.referenceID,
    fxRate := t.fxRate }

/-- Function getSystemAccountID: map a normalized currency code to the
well-known liquidity account. -/
def getSystemAccountID (currency : String) : Except SvcError Nat :=
  if normalizeState currency = "USD" then .ok SystemAccountUSD
  else if normalizeState currency = "EUR" then .ok SystemAccountEUR
  else if normalizeState currency = "GBP" then .ok SystemAccountGBP
  else .error .unsupportedCurrency

/-- Function dedupeUUIDs: first-occurrence deduplication. -/
def dedupeUUIDs (ids : List Nat) : List Nat :=
  ids.foldl (fun acc i => if acc.contains i then acc else acc ++ [i]) []

/-- The RunInTx closure of TransferService.Transfer: lock both accounts in
stable id order, validate currencies and balance, create the PENDING
transaction with its created audit row, move it to PROCESSING, write the
debit and credit entries, apply both balance updates with exactly-one
checks, and complete. Returns the updated state and the transaction
currency; any error rolls the whole transaction back. -/
def transferBody (db : DB) (fromAccountID toAccountID : Nat) (amount : Int)
    (referenceID : String) (txid entryDebitID entryCreditID : Nat) :
    Except SvcError (DB × String) :=
  let account1ID :=
    if fromAccountID > toAccountID then toAccountID else fromAccountID
  let account2ID :=
    if fromAccountID > toAccountID then fromAccountID else toAccountID
  match getAccount db account1ID with
  | Option.none => .error .notFound
  | some _ =>
  match getAccount db account2ID with
  | Option.none => .error .notFound
  | some _ =>
  match getAccount db fromAccountID with
  | Option.none => .error .notFound
  | some fromAcc =>
  match getAccount db toAccountID with
  | Option.none => .error .notFound
  | some toAcc =>
  if fromAcc.currency ≠ toAcc.currency then .error .currencyMismatch
  else if fromAcc.balance < amount then .error .insufficientFunds
  else
    let db1 := createTransaction db
      { id := txid, amount := amount, currency := fromAcc.currency,
        type := TxTypeTransfer, status := TxStatusPending,
        referenceID := referenceID, fxRate := Option.none,
        metadata := Meta.none }
    let db2 := insertAuditLog db1
      { entityType := "transaction", entityID := txid,
        actorID := Option.none, action := "created",
        prevState := textParam "", nextState := textParam TxStatusPending,
        metadata := Meta.none }
    match transitionTransactionState db2 txid TxStatusProcessing
        Option.none "processing_started" Meta.none with
    | .error e => .error e
    | .ok db3 =>
    let db4 := createEntry db3
      { id := entryDebitID, transactionID := txid,
        accountID := fromAccountID, amount := amount,
        direction := DirectionDebit }
    let db5 := createEntry db4
      { id := entryCreditID, transactionID := txid,
        accountID := toAccountID, amount := amount,
        direction := DirectionCredit }
    match updateAccountBalance db5 (-amount) fromAccountID with
    | (db6, rows1) =>
    match requireExactlyOne rows1 with
    | .error e => .error e
    | .ok _ =>
    match updateAccountBalance db6 amount toAccountID with
    | (db7, rows2) =>
    match requireExactlyOne rows2 with
    | .error e => .error e
    | .ok _ =>
    match transitionTransactionState db7 txid TxStatusCompleted
        Option.none "completed" Meta.none with
    | .error e => .error e
    | .ok db8 => .ok (db8, fromAcc.currency)

/-- Method TransferService.Transfer: validate inputs, short-circuit on an
existing reference, otherwise run the transactional body. The
unique-violation re-read branch is unreachable in this sequential model
(no concurrent writer can insert the reference between the check and the
commit), so the body result is returned directly. -/
def transfer (db : DB) (fromAccountID toAccountID : Nat) (amount : Int)
    (referenceID : String) (txid entryDebitID entryCreditID : Nat) :
    Except SvcError (DB × RetTxn) :=
  if amount ≤ 0 then .error .invalidAmount
  else if referenceID = "" then .error .referenceRequired
  else if fromAccountID = toAccountID then .error .sameAccountTransfer
  else
    match checkTransactionIdempotency db referenceID with
    | some existingTx => .ok (db, mapExistingTransaction existingTx)
    | Option.none =>
      match transferBody db fromAccountID toAccountID amount referenceID
          txid entryDebitID entryCreditID with
      | .error e => .error e
      | .ok (db1, txCurrency) =>
        .ok (db1,
          { id := txid, amount := amount, currency := txCurrency,
            type := TxTypeTransfer, status := TxStatusCompleted,
            referenceID := referenceID, fxRate := Option.none })

/-- Command object for TransferService.TransferExchange. -/
structure TransferExchangeCmd where
  fromAccountID : Nat
  toAccountID : Nat
  amount : Int
  fromCurrency : String
  toCurrency : String
  referenceID : String
  deriving Repr, DecidableEq

/-- Query UpdateTransactionFx: set fx_rate and metadata on the matching
transaction, returning affected rows. -/
def updateTransactionFx (db : DB) (fxRate : Dec) (md : Meta)
    (txid : Nat) : DB × Nat :=
  ({ db with
      transactions :=
        db.transactions.map (fun t =>
          if t.id = txid then
            { t with fxRate := some fxRate, metadata := md }
          else t) },
    db.transactions.countP (fun t => t.id = txid))

/-- The RunInTx closure of TransferService.TransferExchange: lock the
deduplicated account set (each must exist), validate both user account
currencies against the requested pair, check the sender balance, create
the PENDING exchange transaction with audit, move to PROCESSING, compute
the target amount with Money.Convert, persist the fx rate and metadata,
write the four ledger entries, apply the four balance updates with
exactly-one checks, and complete. -/
def transferExchangeBody (db : DB) (cmd : TransferExchangeCmd) (rate : Dec)
    (liqSourceID liqTargetID : Nat) (txid e1 e2 e3 e4 : Nat) :
    Except SvcError DB :=
  if ¬ (dedupeUUIDs [cmd.fromAccountID, liqSourceID, liqTargetID,
      cmd.toAccountID]).all (fun i => (getAccount db i).isSome) then
    .error .notFound
  else
  match getAccount db cmd.fromAccountID with
  | Option.none => .error .notFound
  | some fromAcc =>
  match getAccount db cmd.toAccountID with
  | Option.none => .error .notFound
  | some toAcc =>
  if fromAcc.currency ≠ cmd.fromCurrency then .error .currencyMismatch
  else if toAcc.currency ≠ cmd.toCurrency then .error .currencyMismatch
  else if fromAcc.balance < cmd.amount then .error .insufficientFunds
  else
    let db1 := createTransaction db
      { id := txid, amount := cmd.amount, currency := cmd.fromCurrency,
        type := TxTypeExchange, status := TxStatusPending,
        referenceID := cmd.referenceID, fxRate := Option.none,
        metadata := Meta.none }
    let db2 := insertAuditLog db1
      { entityType := "transaction", entityID := txid,
        actorID := Option.none, action := "created",
        prevState := textParam "", nextState := textParam TxStatusPending,
        metadata := Meta.none }
    match transitionTransactionState db2 txid TxStatusProcessing
        Option.none "processing_started" Meta.none with
    | .error e => .error e
    | .ok db3 =>
    let sourceMoney := NewMoney cmd.amount cmd.fromCurrency
    let targetMoney := sourceMoney.convert cmd.toCurrency rate
    let amountSource := sourceMoney.amount
    let amountTarget := targetMoney.amount
    match updateTransactionFx db3 rate
        (Meta.exchange cmd.fromCurrency cmd.toCurrency amountTarget)
        txid with
    | (db4, rowsFx) =>
    match requireExactlyOne rowsFx with
    | .error e => .error e
    | .ok _ =>
    let db5 := createEntry db4
      { id := e1, transactionID := txid, accountID := cmd.fromAccountID,
        amount := amountSource, direction := DirectionDebit }
    let db6 := createEntry db5
      { id := e2, transactionID := txid, accountID := liqSourceID,
        amount := amountSource, direction := DirectionCredit }
    let db7 := createEntry db6
      { id := e3, transactionID := txid, accountID := liqTargetID,
        amount := amountTarget, direction := DirectionDebit }
    let db8 := createEntry db7
      { id := e4, transactionID := txid, accountID := cmd.toAccountID,
        amount := amountTarget, direction := DirectionCredit }
    match updateAccountBalance db8 (-amountSource) cmd.fromAccountID with
    | (db9, r1) =>
    match requireExactlyOne r1 with
    | .error e => .error e
    | .ok _ =>
    match updateAccountBalance db9 amountSource liqSourceID with
    | (db10, r2) =>
    match requireExactlyOne r2 with
    | .error e => .error e
    | .ok _ =>
    match updateAccountBalance db10 (-amountTarget) liqTargetID with
    | (db11, r3) =>
    match requireExactlyOne r3 with
    | .error e => .error e
    | .ok _ =>
    match updateAccountBalance db11 amountTarget cmd.toAccountID with
    | (db12, r4) =>
    match requireExactlyOne r4 with
    | .error e => .error e
    | .ok _ =>
    match transitionTransactionState db12 txid TxStatusCompleted
        Option.none "completed" Meta.none with
    | .error e => .error e
    | .ok db13 => .ok db13

/-- Method TransferService.TransferExchange: validate inputs,
short-circuit on an existing reference, resolve the liquidity accounts,
run the transactional body. The successfully fetched exchange rate is a
parameter (the rate service is an external collaborator). -/
def transferExchange (db : DB) (cmd : TransferExchangeCmd) (rate : Dec)
    (txid e1 e2 e3 e4 : Nat) : Except SvcError (DB × RetTxn) :=
  if cmd.amount ≤ 0 then .error .invalidAmount
  else if cmd.referenceID = "" then .error .referenceRequired
  else if cmd.fromAccountID = cmd.toAccountID then
    .error .sameAccountTransfer
  else if cmd.fromCurrency = cmd.toCurrency then
    .error .sameCurrencyExchange
  else
    match checkTransactionIdempotency db cmd.referenceID with
    | some existingTx => .ok (db, mapExistingTransaction existingTx)
    | Option.none =>
      match getSystemAccountID cmd.fromCurrency with
      | .error e => .error e
      | .ok liqSourceID =>
      match getSystemAccountID cmd.toCurrency with
      | .error e => .error e
      | .ok liqTargetID =>
      match transferExchangeBody db cmd rate liqSourceID liqTargetID
          txid e1 e2 e3 e4 with
      | .error e => .error e
      | .ok db1 =>
        .ok (db1,
          { id := txid, amount := cmd.amount,
            currency := cmd.fromCurrency, type := TxTypeExchange,
            status := TxStatusCompleted,
            referenceID := cmd.referenceID, fxRate := some rate })

/-- Claim C9: whenever any transaction with the given reference already
exists, in any status whatsoever (the lookup never inspects the status),
both Transfer and TransferExchange return that transaction mapped through
mapExistingTransaction with the state untouched, so a previously FAILED
reference can never be retried through these two operations. -/
theorem existing_reference_short_circuits (db : DB) (fromA toA : Nat)
    (amount : Int) (ref fc tc : String) (rate : Dec) (t : Txn)
    (txid d1 d2 x1 x2 x3 x4 x5 : Nat)
    (hamt : 0 < amount) (href : ref ≠ "") (hacc : fromA ≠ toA)
    (hcurr : fc ≠ tc)
    (hfound : checkTransactionIdempotency db ref = some t) :
    transfer db fromA toA amount ref txid d1 d2 =
      .ok (db, mapExistingTransaction t)
    ∧ transferExchange db
        { fromAccountID := fromA, toAccountID := toA, amount := amount,
          fromCurrency := fc, toCurrency := tc, referenceID := ref }
        rate x1 x2 x3 x4 x5 =
      .ok (db, mapExistingTransaction t) := by
  constructor
  · rw [transfer, if_neg (not_le.mpr hamt), if_neg href, if_neg hacc,
      hfound]
  · rw [transferExchange]
    simp only [not_le, hfound]
    rw [if_neg (not_le.mpr hamt), if_neg href, if_neg hacc, if_neg hcurr]

/-- Witness database for C9: a FAILED transfer occupying reference rf. -/
def replayWitnessDB : DB :=
  { accounts :=
      [{ id := 1, currency := "USD", balance := 100, lockedMicros := 0 },
       { id := 2, currency := "EUR", balance := 0, lockedMicros := 0 }],
    transactions :=
      [{ id := 7, amount := 5, currency := "USD", type := "transfer",
         status := "FAILED", referenceID := "rf", fxRate := Option.none,
         metadata := Meta.none }],
    entries := [], payouts := [], auditLog := [] }

/-- Witness for C9: with a FAILED transaction holding the reference, both
operations return it unchanged and write nothing. -/
theorem existing_reference_short_circuits_witness :
    transfer replayWitnessDB 1 2 5 "rf" 30 31 32 =
      .ok (replayWitnessDB, mapExistingTransaction
        { id := 7, amount := 5, currency := "USD", type := "transfer",
          status := "FAILED", referenceID := "rf", fxRate := Option.none,
          metadata := Meta.none })
    ∧ transferExchange replayWitnessDB
        { fromAccountID := 1, toAccountID := 2, amount := 5,
          fromCurrency := "USD", toCurrency := "EUR",
          referenceID := "rf" }
        { value := 92, exp := -2 } 40 41 42 43 44 =
      .ok (replayWitnessDB, mapExistingTransaction
        { id := 7, amount := 5, currency := "USD", type := "transfer",
          status := "FAILED", referenceID := "rf", fxRate := Option.none,
          metadata := Meta.none }) :=
  existing_reference_short_circuits replayWitnessDB 1 2 5 "rf" "USD" "EUR"
    { value := 92, exp := -2 }
    { id := 7, amount := 5, currency := "USD", type := "transfer",
      status := "FAILED", referenceID := "rf", fxRate := Option.none,
      metadata := Meta.none }
    30 31 32 40 41 42 43 44 (by decide) (by decide) (by decide)
    (by decide) (by decide)

/-- Mapping with a function that fixes every element of a list is the
identity. -/
theorem map_noop {α} (l : List α) (f : α → α) (h : ∀ a ∈ l, f a = a) :
    l.map f = l := by
  induction l with
  | nil => rfl
  | cons x xs ih =>
    simp only [List.map_cons, h x (by simp)]
    rw [ih (fun a ha => h a (by simp [ha]))]

/-- Computation law for transitionTransactionState on a state whose
transactions list ends in the (unique) row being transitioned. -/
theorem transition_fresh_appended (db : DB) (T : List Txn) (tP : Txn)
    (txid : Nat) (next : String) (actor : Option Nat) (action : String)
    (md : Meta)
    (hT : db.transactions = T ++ [tP])
    (hfresh : T.countP (fun t => t.id = txid) = 0)
    (hid : tP.id = txid)
    (hnorm : normalizeState tP.status ≠ normalizeState next)
    (hcan : canTransition tP.status next = true)
    (hs : tP.status ≠ "") (hn : next ≠ "") :
    transitionTransactionState db txid next actor action md =
      .ok { db with
        transactions := T ++ [{ tP with status := next }],
        auditLog := db.auditLog ++
          [{ entityType := "transaction", entityID := txid,
             actorID := actor, action := action,
             prevState := some tP.status, nextState := some next,
             metadata := md }] } := by
  have hTnone : T.find? (fun t => t.id = txid) = Option.none := by
    rw [List.find?_eq_none]
    intro x hx
    have := List.countP_eq_zero.mp hfresh x hx
    simpa using this
  have hfind : getTransactionStatusForUpdate db txid = some tP.status := by
    unfold getTransactionStatusForUpdate
    rw [hT, List.find?_append, hTnone]
    simp [hid]
  have hrows : db.transactions.countP (fun t => t.id = txid) = 1 := by
    rw [hT]
    simp [hfresh, hid]
  simp only [transitionTransactionState, hfind]
  rw [if_neg hnorm, if_neg (by simp [hcan])]
  simp only [updateTransactionStatus, hrows]
  rw [if_neg (by decide)]
  simp only [insertAuditLog]
  have hmap : (db.transactions.map (fun t =>
      if t.id = txid then { t with status := next } else t)) =
      T ++ [{ tP with status := next }] := by
    rw [hT, List.map_append]
    have h1 : T.map (fun t =>
        if t.id = txid then { t with status := next } else t) = T := by
      apply map_noop
      intro a ha
      have := List.countP_eq_zero.mp hfresh a ha
      simp only [decide_eq_true_eq] at this
      simp [this]
    rw [h1]
    simp [hid]
  rw [show textParam tP.status = some tP.status from if_neg hs]
  rw [show textParam next = some next from if_neg hn]
  exact congrArg Except.ok (by rw [hmap])
/-- Claim C4: Transfer is idempotent on its reference. After a first
successful call on a fresh reference (with fresh transaction and entry
identifiers, the uuid freshness assumption), a second call with the same
arguments returns the same completed transaction and leaves the state
untouched; across the two calls the sender balance decreased exactly once
by the amount, the receiver balance increased exactly once, and exactly
two ledger entries exist for the transaction of that reference. -/
theorem transfer_idempotent (db db1 : DB) (t1 : RetTxn)
    (fromA toA : Nat) (amount : Int) (ref : String) (txid d1 d2 d3 d4 : Nat)
    (hnone : checkTransactionIdempotency db ref = Option.none)
    (hfreshTx : db.transactions.countP (fun t => t.id = txid) = 0)
    (hfreshEn : db.entries.countP (fun e => e.transactionID = txid) = 0)
    (hfirst : transfer db fromA toA amount ref txid d1 d2 = .ok (db1, t1)) :
    transfer db1 fromA toA amount ref txid d3 d4 = .ok (db1, t1)
    ∧ (∃ fa ta, getAccount db fromA = some fa ∧ getAccount db toA = some ta
        ∧ getAccount db1 fromA =
            some { fa with balance := fa.balance + -amount }
        ∧ getAccount db1 toA =
            some { ta with balance := ta.balance + amount })
    ∧ db1.entries.countP (fun e => e.transactionID = t1.id) = 2 := by
  rw [transfer] at hfirst
  by_cases h1 : amount ≤ 0
  · rw [if_pos h1] at hfirst; cases hfirst
  rw [if_neg h1] at hfirst
  by_cases h2 : ref = ""
  · rw [if_pos h2] at hfirst; cases hfirst
  rw [if_neg h2] at hfirst
  by_cases h3 : fromA = toA
  · rw [if_pos h3] at hfirst; cases hfirst
  rw [if_neg h3] at hfirst
  rw [hnone] at hfirst
  rcases hbody : transferBody db fromA toA amount ref txid d1 d2 with e | p
  · rw [hbody] at hfirst; cases hfirst
  rcases p with ⟨D8, cur⟩
  rw [hbody] at hfirst
  dsimp only at hfirst
  rw [transferBody] at hbody
  dsimp only at hbody
  rcases hL1 : getAccount db (if fromA > toA then toA else fromA) with _ | acc1
  · rw [hL1] at hbody; cases hbody
  rw [hL1] at hbody
  rcases hL2 : getAccount db (if fromA > toA then fromA else toA) with _ | acc2
  · rw [hL2] at hbody; cases hbody
  rw [hL2] at hbody
  rcases hFA : getAccount db fromA with _ | fromAcc
  · rw [hFA] at hbody; cases hbody
  rw [hFA] at hbody
  rcases hTA : getAccount db toA with _ | toAcc
  · rw [hTA] at hbody; cases hbody
  rw [hTA] at hbody
  dsimp only at hbody
  by_cases hcur : fromAcc.currency ≠ toAcc.currency
  · rw [if_pos hcur] at hbody; cases hbody
  rw [if_neg hcur] at hbody
  by_cases hbal : fromAcc.balance < amount
  · rw [if_pos hbal] at hbody; cases hbody
  rw [if_neg hbal] at hbody
  have htr1 := transition_fresh_appended
    (insertAuditLog (createTransaction db
        { id := txid, amount := amount, currency := fromAcc.currency,
          type := TxTypeTransfer, status := TxStatusPending,
          referenceID := ref, fxRate := Option.none,
          metadata := Meta.none })
      { entityType := "transaction", entityID := txid,
        actorID := Option.none, action := "created",
        prevState := textParam "", nextState := textParam TxStatusPending,
        metadata := Meta.none })
    db.transactions
    { id := txid, amount := amount, currency := fromAcc.currency,
      type := TxTypeTransfer, status := TxStatusPending,
      referenceID := ref, fxRate := Option.none, metadata := Meta.none }
    txid TxStatusProcessing Option.none "processing_started" Meta.none
    rfl hfreshTx rfl
    (show normalizeState TxStatusPending ≠ normalizeState TxStatusProcessing
      by decide)
    (show canTransition TxStatusPending TxStatusProcessing = true by decide)
    (show TxStatusPending ≠ "" by decide)
    (show TxStatusProcessing ≠ "" by decide)
  rw [htr1] at hbody
  dsimp only at hbody
  simp only [insertAuditLog, createTransaction, createEntry,
    updateAccountBalance, requireExactlyOne] at hbody
  by_cases hcnt1 : db.accounts.countP (fun a => a.id = fromA) = 1
  case neg => rw [if_neg hcnt1] at hbody; cases hbody
  rw [if_pos hcnt1] at hbody
  dsimp only at hbody
  by_cases hcnt2 : (db.accounts.map (fun a =>
      if a.id = fromA then { a with balance := a.balance + -amount }
      else a)).countP (fun a => a.id = toA) = 1
  case neg => rw [if_neg hcnt2] at hbody; cases hbody
  rw [if_pos hcnt2] at hbody
  dsimp only at hbody
  have htr2 := transition_fresh_appended
    { accounts :=
        (db.accounts.map (fun a =>
          if a.id = fromA then { a with balance := a.balance + -amount }
          else a)).map (fun a =>
          if a.id = toA then { a with balance := a.balance + amount }
          else a),
      transactions := db.transactions ++
        [{ id := txid, amount := amount, currency := fromAcc.currency,
           type := TxTypeTransfer, status := TxStatusProcessing,
           referenceID := ref, fxRate := Option.none,
           metadata := Meta.none }],
      entries := db.entries ++
        [{ id := d1, transactionID := txid, accountID := fromA,
           amount := amount, direction := DirectionDebit }] ++
        [{ id := d2, transactionID := txid, accountID := toA,
           amount := amount, direction := DirectionCredit }],
      payouts := db.payouts,
      auditLog := db.auditLog ++
        [{ entityType := "transaction", entityID := txid,
           actorID := Option.none, action := "created",
           prevState := textParam "",
           nextState := textParam TxStatusPending,
           metadata := Meta.none }] ++
        [{ entityType := "transaction", entityID := txid,
           actorID := Option.none, action := "processing_started",
           prevState := some TxStatusPending,
           nextState := some TxStatusProcessing,
           metadata := Meta.none }] }
    db.transactions
    { id := txid, amount := amount, currency := fromAcc.currency,
      type := TxTypeTransfer, status := TxStatusProcessing,
      referenceID := ref, fxRate := Option.none, metadata := Meta.none }
    txid TxStatusCompleted Option.none "completed" Meta.none
    rfl hfreshTx rfl
    (show normalizeState TxStatusProcessing ≠ normalizeState TxStatusCompleted
      by decide)
    (show canTransition TxStatusProcessing TxStatusCompleted = true by decide)
    (show TxStatusProcessing ≠ "" by decide)
    (show TxStatusCompleted ≠ "" by decide)
  rw [htr2] at hbody
  dsimp only at hbody
  rw [Except.ok.injEq, Prod.mk.injEq] at hbody
  obtain ⟨hD8, hcur8⟩ := hbody
  subst hD8
  subst hcur8
  rw [Except.ok.injEq, Prod.mk.injEq] at hfirst
  obtain ⟨hdb1, ht1⟩ := hfirst
  subst hdb1
  subst ht1
  unfold checkTransactionIdempotency at hnone
  unfold getAccount at hFA hTA
  have hFAid : fromAcc.id = fromA := by
    have := List.find?_some hFA
    simpa using this
  have hTAid : toAcc.id = toA := by
    have := List.find?_some hTA
    simpa using this
  refine ⟨?_, ?_, ?_⟩
  · rw [transfer, if_neg h1, if_neg h2, if_neg h3]
    simp only [checkTransactionIdempotency]
    rw [List.find?_append, hnone]
    simp [mapExistingTransaction]
  · have hidmapF : ∀ a : Account,
        ((if a.id = fromA then { a with balance := a.balance + -amount }
          else a) : Account).id = a.id := by
      intro a; by_cases hx : a.id = fromA <;> simp [hx]
    have hidmapT : ∀ a : Account,
        ((if a.id = toA then { a with balance := a.balance + amount }
          else a) : Account).id = a.id := by
      intro a; by_cases hy : a.id = toA <;> simp [hy]
    have h3s : ¬ toA = fromA := fun h => h3 h.symm
    refine ⟨fromAcc, toAcc, rfl, rfl, ?_, ?_⟩
    · unfold getAccount
      dsimp only
      rw [List.find?_map, List.find?_map]
      have hpred : ((fun a : Account => decide (a.id = fromA)) ∘
          (fun a => if a.id = toA then
            { a with balance := a.balance + amount } else a)) ∘
          (fun a => if a.id = fromA then
            { a with balance := a.balance + -amount } else a) =
          (fun a : Account => decide (a.id = fromA)) := by
        funext a
        simp only [Function.comp]
        rw [hidmapT, hidmapF]
      rw [hpred, hFA]
      simp [hFAid, h3]
    · unfold getAccount
      dsimp only
      rw [List.find?_map, List.find?_map]
      have hpred : ((fun a : Account => decide (a.id = toA)) ∘
          (fun a => if a.id = toA then
            { a with balance := a.balance + amount } else a)) ∘
          (fun a => if a.id = fromA then
            { a with balance := a.balance + -amount } else a) =
          (fun a : Account => decide (a.id = toA)) := by
        funext a
        simp only [Function.comp]
        rw [hidmapT, hidmapF]
      rw [hpred, hTA]
      simp [hTAid, h3s]
  · dsimp only
    simp [List.countP_append, List.countP_cons, hfreshEn]

/-- Witness input state for C4. -/
def idemDB0 : DB :=
  { accounts :=
      [{ id := 1, currency := "USD", balance := 100, lockedMicros := 0 },
       { id := 2, currency := "USD", balance := 0, lockedMicros := 0 }],
    transactions := [], entries := [], payouts := [], auditLog := [] }

/-- Witness state after the first transfer call of C4. -/
def idemDB1 : DB :=
  { accounts :=
      [{ id := 1, currency := "USD", balance := 50, lockedMicros := 0 },
       { id := 2, currency := "USD", balance := 50, lockedMicros := 0 }],
    transactions :=
      [{ id := 10, amount := 50, currency := "USD", type := "transfer",
         status := "COMPLETED", referenceID := "k1", fxRate := Option.none,
         metadata := Meta.none }],
    entries :=
      [{ id := 11, transactionID := 10, accountID := 1, amount := 50,
         direction := "debit" },
       { id := 12, transactionID := 10, accountID := 2, amount := 50,
         direction := "credit" }],
    payouts := [],
    auditLog :=
      [{ entityType := "transaction", entityID := 10,
         actorID := Option.none, action := "created",
         prevState := Option.none, nextState := some "PENDING",
         metadata := Meta.none },
       { entityType := "transaction", entityID := 10,
         actorID := Option.none, action := "processing_started",
         prevState := some "PENDING", nextState := some "PROCESSING",
         metadata := Meta.none },
       { entityType := "transaction", entityID := 10,
         actorID := Option.none, action := "completed",
         prevState := some "PROCESSING", nextState := some "COMPLETED",
         metadata := Meta.none }] }

/-- Witness result transaction for C4. -/
def idemT1 : RetTxn :=
  { id := 10, amount := 50, currency := "USD", type := "transfer",
    status := "COMPLETED", referenceID := "k1", fxRate := Option.none }

/-- Witness for C4 on the spec scenario: a 50 transfer between two USD
accounts, replayed with the same reference. -/
theorem transfer_idempotent_witness :
    transfer idemDB1 1 2 50 "k1" 10 13 14 = .ok (idemDB1, idemT1)
    ∧ (∃ fa ta, getAccount idemDB0 1 = some fa
        ∧ getAccount idemDB0 2 = some ta
        ∧ getAccount idemDB1 1 =
            some { fa with balance := fa.balance + -50 }
        ∧ getAccount idemDB1 2 =
            some { ta with balance := ta.balance + 50 })
    ∧ idemDB1.entries.countP (fun e => e.transactionID = idemT1.id) = 2 :=
  transfer_idempotent idemDB0 idemDB1 idemT1 1 2 50 "k1" 10 11 12 13 14
    (by decide) (by decide) (by decide) rfl

/-- Signed ledger amount of one entry, mirroring the CASE expression of
the GetLedgerNet query: credit counts positive, debit negative, anything
else zero. -/
def entrySigned (e : Entry) : Int :=
  if e.direction = DirectionCredit then e.amount
  else if e.direction = DirectionDebit then -e.amount else 0

/-- Net Σ(credit) − Σ(debit) over a list of entries. -/
def netAmount (l : List Entry) : Int :=
  (l.map entrySigned).sum

/-- Currency of the account an entry belongs to (the INNER JOIN with
accounts used by GetLedgerCurrencyImbalances). -/
def entryCurrency (db : DB) (e : Entry) : Option String :=
  (getAccount db e.accountID).map (fun a => a.currency)

/-- Finding an account by id through an id- and currency-preserving map
leaves the currency of the result unchanged. -/
theorem find?_currency_map (l : List Account) (f : Account → Account)
    (hf : ∀ a, (f a).id = a.id ∧ (f a).currency = a.currency) (x : Nat) :
    ((l.map f).find? (fun a => a.id = x)).map (fun a => a.currency) =
      (l.find? (fun a => a.id = x)).map (fun a => a.currency) := by
  rw [List.find?_map]
  have hp : ((fun a : Account => decide (a.id = x)) ∘ f) =
      (fun a : Account => decide (a.id = x)) := by
    funext a
    simp [Function.comp, (hf a).1]
  rw [hp]
  rcases hfind : l.find? (fun a => decide (a.id = x)) with _ | a
  · rw [hfind]
    rfl
  · rw [hfind]
    simp [(hf a).2]

/-- Claim C5: every successful FX exchange creates exactly four ledger
entries, a debit of the source amount on the sending account, a credit of
the source amount on the source-currency liquidity account, a debit of the
computed target amount on the target-currency liquidity account and a
credit of the target amount on the receiving account; grouping the
entries of the transaction by the currency of their account, each of the
two currencies nets Σ(credit) − Σ(debit) = 0. -/
theorem exchange_four_entries (db db1 : DB) (t1 : RetTxn)
    (fromA toA liqS liqT : Nat) (amount : Int) (fc tc ref : String)
    (rate : Dec) (txid e1 e2 e3 e4 : Nat)
    (hnone : checkTransactionIdempotency db ref = Option.none)
    (hfreshTx : db.transactions.countP (fun t => t.id = txid) = 0)
    (hfreshEn : db.entries.countP (fun e => e.transactionID = txid) = 0)
    (hLS : getSystemAccountID fc = .ok liqS)
    (hLT : getSystemAccountID tc = .ok liqT)
    (hLSe : ∃ la, getAccount db liqS = some la ∧ la.currency = fc)
    (hLTe : ∃ la, getAccount db liqT = some la ∧ la.currency = tc)
    (hx : transferExchange db
      { fromAccountID := fromA, toAccountID := toA, amount := amount,
        fromCurrency := fc, toCurrency := tc, referenceID := ref }
      rate txid e1 e2 e3 e4 = .ok (db1, t1)) :
    db1.entries.filter (fun e => e.transactionID = txid) =
      [{ id := e1, transactionID := txid, accountID := fromA,
         amount := amount, direction := DirectionDebit },
       { id := e2, transactionID := txid, accountID := liqS,
         amount := amount, direction := DirectionCredit },
       { id := e3, transactionID := txid, accountID := liqT,
         amount := ((NewMoney amount fc).convert tc rate).amount,
         direction := DirectionDebit },
       { id := e4, transactionID := txid, accountID := toA,
         amount := ((NewMoney amount fc).convert tc rate).amount,
         direction := DirectionCredit }]
    ∧ netAmount ((db1.entries.filter
        (fun e => e.transactionID = txid)).filter
        (fun e => entryCurrency db1 e = some fc)) = 0
    ∧ netAmount ((db1.entries.filter
        (fun e => e.transactionID = txid)).filter
        (fun e => entryCurrency db1 e = some tc)) = 0 := by
  obtain ⟨la, hla, hlac⟩ := hLSe
  obtain ⟨lb, hlb, hlbc⟩ := hLTe
  rw [transferExchange] at hx
  dsimp only at hx
  by_cases h1 : amount ≤ 0
  · rw [if_pos h1] at hx; cases hx
  rw [if_neg h1] at hx
  by_cases h2 : ref = ""
  · rw [if_pos h2] at hx; cases hx
  rw [if_neg h2] at hx
  by_cases h3 : fromA = toA
  · rw [if_pos h3] at hx; cases hx
  rw [if_neg h3] at hx
  by_cases h4 : fc = tc
  · rw [if_pos h4] at hx; cases hx
  rw [if_neg h4] at hx
  rw [hnone, hLS, hLT] at hx
  unfold transferExchangeBody at hx
  dsimp only at hx
  by_cases hlock : ¬ (dedupeUUIDs [fromA, liqS, liqT, toA]).all
      (fun i => (getAccount db i).isSome)
  · rw [if_pos hlock] at hx; cases hx
  rw [if_neg hlock] at hx
  rcases hFA : getAccount db fromA with _ | fromAcc
  · rw [hFA] at hx; cases hx
  rw [hFA] at hx
  rcases hTA : getAccount db toA with _ | toAcc
  · rw [hTA] at hx; cases hx
  rw [hTA] at hx
  dsimp only at hx
  by_cases hc1 : fromAcc.currency ≠ fc
  · rw [if_pos hc1] at hx; cases hx
  rw [if_neg hc1] at hx
  by_cases hc2 : toAcc.currency ≠ tc
  · rw [if_pos hc2] at hx; cases hx
  rw [if_neg hc2] at hx
  by_cases hbal : fromAcc.balance < amount
  · rw [if_pos hbal] at hx; cases hx
  rw [if_neg hbal] at hx
  have htr1 := transition_fresh_appended
    (insertAuditLog (createTransaction db
        { id := txid, amount := amount, currency := fc,
          type := TxTypeExchange, status := TxStatusPending,
          referenceID := ref, fxRate := Option.none,
          metadata := Meta.none })
      { entityType := "transaction", entityID := txid,
        actorID := Option.none, action := "created",
        prevState := textParam "", nextState := textParam TxStatusPending,
        metadata := Meta.none })
    db.transactions
    { id := txid, amount := amount, currency := fc,
      type := TxTypeExchange, status := TxStatusPending,
      referenceID := ref, fxRate := Option.none, metadata := Meta.none }
    txid TxStatusProcessing Option.none "processing_started" Meta.none
    rfl hfreshTx rfl
    (show normalizeState TxStatusPending ≠ normalizeState TxStatusProcessing
      by decide)
    (show canTransition TxStatusPending TxStatusProcessing = true by decide)
    (show TxStatusPending ≠ "" by decide)
    (show TxStatusProcessing ≠ "" by decide)
  rw [htr1] at hx
  dsimp only at hx
  simp only [updateTransactionFx, requireExactlyOne] at hx
  have hcntTx : (db.transactions ++
      [(⟨txid, amount, fc, TxTypeExchange, TxStatusProcessing,
         ref, Option.none, Meta.none⟩ : Txn)]).countP
        (fun t : Txn => t.id = txid) = 1 := by
    simp [hfreshTx]
  rw [if_pos hcntTx] at hx
  dsimp only at hx
  have hmapfx : (db.transactions ++
      [(⟨txid, amount, fc, TxTypeExchange, TxStatusProcessing,
         ref, Option.none, Meta.none⟩ : Txn)]).map
        (fun t : Txn => if t.id = txid then
          { t with
              fxRate := some rate,
              metadata := Meta.exchange fc tc
                ((NewMoney amount fc).convert tc rate).amount }
          else t) =
      db.transactions ++
      [{ id := txid, amount := amount, currency := fc,
         type := TxTypeExchange, status := TxStatusProcessing,
         referenceID := ref, fxRate := some rate,
         metadata := Meta.exchange fc tc
           ((NewMoney amount fc).convert tc rate).amount }] := by
    rw [List.map_append]
    have hn : db.transactions.map
        (fun t : Txn => if t.id = txid then
          { t with
              fxRate := some rate,
              metadata := Meta.exchange fc tc
                ((NewMoney amount fc).convert tc rate).amount }
          else t) = db.transactions := by
      apply map_noop
      intro a ha
      have := List.countP_eq_zero.mp hfreshTx a ha
      simp only [decide_eq_true_eq] at this
      simp [this]
    rw [hn]
    simp
  rw [hmapfx] at hx
  simp only [insertAuditLog, createTransaction, createEntry,
    updateAccountBalance, NewMoney] at hx
  by_cases hk1 : db.accounts.countP (fun a => a.id = fromA) = 1
  case neg => rw [if_neg hk1] at hx; cases hx
  rw [if_pos hk1] at hx
  dsimp only at hx
  by_cases hk2 : (db.accounts.map (fun a =>
      if a.id = fromA then { a with balance := a.balance + -amount }
      else a)).countP (fun a => a.id = liqS) = 1
  case neg => rw [if_neg hk2] at hx; cases hx
  rw [if_pos hk2] at hx
  dsimp only at hx
  by_cases hk3 : ((db.accounts.map (fun a =>
      if a.id = fromA then { a with balance := a.balance + -amount }
      else a)).map (fun a =>
      if a.id = liqS then { a with balance := a.balance + amount }
      else a)).countP (fun a => a.id = liqT) = 1
  case neg => rw [if_neg hk3] at hx; cases hx
  rw [if_pos hk3] at hx
  dsimp only at hx
  by_cases hk4 : (((db.accounts.map (fun a =>
      if a.id = fromA then { a with balance := a.balance + -amount }
      else a)).map (fun a =>
      if a.id = liqS then { a with balance := a.balance + amount }
      else a)).map (fun a =>
      if a.id = liqT then { a with balance :=
        a.balance + -((Money.mk amount fc).convert tc rate).amount }
      else a)).countP (fun a => a.id = toA) = 1
  case neg => rw [if_neg hk4] at hx; cases hx
  rw [if_pos hk4] at hx
  dsimp only at hx
  have htr2 := transition_fresh_appended
    { accounts :=
        (((db.accounts.map (fun a =>
          if a.id = fromA then { a with balance := a.balance + -amount }
          else a)).map (fun a =>
          if a.id = liqS then { a with balance := a.balance + amount }
          else a)).map (fun a =>
          if a.id = liqT then { a with balance :=
            a.balance + -((Money.mk amount fc).convert tc rate).amount }
          else a)).map (fun a =>
          if a.id = toA then { a with balance :=
            a.balance + ((Money.mk amount fc).convert tc rate).amount }
          else a),
      transactions := db.transactions ++
        [{ id := txid, amount := amount, currency := fc,
           type := TxTypeExchange, status := TxStatusProcessing,
           referenceID := ref, fxRate := some rate,
           metadata := Meta.exchange fc tc
             ((Money.mk amount fc).convert tc rate).amount }],
      entries := db.entries ++
        [{ id := e1, transactionID := txid, accountID := fromA,
           amount := amount, direction := DirectionDebit }] ++
        [{ id := e2, transactionID := txid, accountID := liqS,
           amount := amount, direction := DirectionCredit }] ++
        [{ id := e3, transactionID := txid, accountID := liqT,
           amount := ((Money.mk amount fc).convert tc rate).amount,
           direction := DirectionDebit }] ++
        [{ id := e4, transactionID := txid, accountID := toA,
           amount := ((Money.mk amount fc).convert tc rate).amount,
           direction := DirectionCredit }],
      payouts := db.payouts,
      auditLog := db.auditLog ++
        [{ entityType := "transaction", entityID := txid,
           actorID := Option.none, action := "created",
           prevState := textParam "",
           nextState := textParam TxStatusPending,
           metadata := Meta.none }] ++
        [{ entityType := "transaction", entityID := txid,
           actorID := Option.none, action := "processing_started",
           prevState := some TxStatusPending,
           nextState := some TxStatusProcessing,
           metadata := Meta.none }] }
    db.transactions
    { id := txid, amount := amount, currency := fc,
      type := TxTypeExchange, status := TxStatusProcessing,
      referenceID := ref, fxRate := some rate,
      metadata := Meta.exchange fc tc
        ((Money.mk amount fc).convert tc rate).amount }
    txid TxStatusCompleted Option.none "completed" Meta.none
    rfl hfreshTx rfl
    (show normalizeState TxStatusProcessing ≠
      normalizeState TxStatusCompleted by decide)
    (show canTransition TxStatusProcessing TxStatusCompleted = true
      by decide)
    (show TxStatusProcessing ≠ "" by decide)
    (show TxStatusCompleted ≠ "" by decide)
  rw [htr2] at hx
  dsimp only at hx
  rw [Except.ok.injEq, Prod.mk.injEq] at hx
  obtain ⟨hdb1, ht1⟩ := hx
  subst hdb1
  subst ht1
  have hFAc : fromAcc.currency = fc := not_not.mp hc1
  have hTAc : toAcc.currency = tc := not_not.mp hc2
  have hf1 : ∀ a : Account,
      ((if a.id = fromA then { a with balance := a.balance + -amount }
        else a) : Account).id = a.id ∧
      ((if a.id = fromA then { a with balance := a.balance + -amount }
        else a) : Account).currency = a.currency := by
    intro a; by_cases h : a.id = fromA <;> simp [h]
  have hf2 : ∀ a : Account,
      ((if a.id = liqS then { a with balance := a.balance + amount }
        else a) : Account).id = a.id ∧
      ((if a.id = liqS then { a with balance := a.balance + amount }
        else a) : Account).currency = a.currency := by
    intro a; by_cases h : a.id = liqS <;> simp [h]
  have hf3 : ∀ a : Account,
      ((if a.id = liqT then { a with balance :=
          a.balance + -((Money.mk amount fc).convert tc rate).amount }
        else a) : Account).id = a.id ∧
      ((if a.id = liqT then { a with balance :=
          a.balance + -((Money.mk amount fc).convert tc rate).amount }
        else a) : Account).currency = a.currency := by
    intro a; by_cases h : a.id = liqT <;> simp [h]
  have hf4 : ∀ a : Account,
      ((if a.id = toA then { a with balance :=
          a.balance + ((Money.mk amount fc).convert tc rate).amount }
        else a) : Account).id = a.id ∧
      ((if a.id = toA then { a with balance :=
          a.balance + ((Money.mk amount fc).convert tc rate).amount }
        else a) : Account).currency = a.currency := by
    intro a; by_cases h : a.id = toA <;> simp [h]
  have hcurAt : ∀ x : Nat,
      ((((((db.accounts.map (fun a =>
        if a.id = fromA then { a with balance := a.balance + -amount }
        else a)).map (fun a =>
        if a.id = liqS then { a with balance := a.balance + amount }
        else a)).map (fun a =>
        if a.id = liqT then { a with balance :=
          a.balance + -((Money.mk amount fc).convert tc rate).amount }
        else a)).map (fun a =>
        if a.id = toA then { a with balance :=
          a.balance + ((Money.mk amount fc).convert tc rate).amount }
        else a)).find? (fun a => a.id = x)).map
          (fun a => a.currency)) =
      (db.accounts.find? (fun a => a.id = x)).map
        (fun a => a.currency) := by
    intro x
    rw [find?_currency_map _ _ hf4, find?_currency_map _ _ hf3,
      find?_currency_map _ _ hf2, find?_currency_map _ _ hf1]
  have hcF : (db.accounts.find? (fun a => a.id = fromA)).map
      (fun a => a.currency) = some fc := by
    rw [show db.accounts.find? (fun a => a.id = fromA) = some fromAcc
      from hFA]
    simp [hFAc]
  have hcT : (db.accounts.find? (fun a => a.id = toA)).map
      (fun a => a.currency) = some tc := by
    rw [show db.accounts.find? (fun a => a.id = toA) = some toAcc
      from hTA]
    simp [hTAc]
  have hcS : (db.accounts.find? (fun a => a.id = liqS)).map
      (fun a => a.currency) = some fc := by
    rw [show db.accounts.find? (fun a => a.id = liqS) = some la from hla]
    simp [hlac]
  have hcL : (db.accounts.find? (fun a => a.id = liqT)).map
      (fun a => a.currency) = some tc := by
    rw [show db.accounts.find? (fun a => a.id = liqT) = some lb from hlb]
    simp [hlbc]
  have hfilter0 : db.entries.filter
      (fun e => e.transactionID = txid) = [] := by
    rw [List.filter_eq_nil_iff]
    intro e he
    have := List.countP_eq_zero.mp hfreshEn e he
    simpa using this
  unfold getAccount at hFA hTA hla hlb
  have hexF : ∃ a, List.find? (fun a => decide (a.id = fromA))
      db.accounts = some a ∧ a.currency = fc := ⟨fromAcc, hFA, hFAc⟩
  have hexS : ∃ a, List.find? (fun a => decide (a.id = liqS))
      db.accounts = some a ∧ a.currency = fc := ⟨la, hla, hlac⟩
  have hexT : ∃ a, List.find? (fun a => decide (a.id = liqT))
      db.accounts = some a ∧ a.currency = tc := ⟨lb, hlb, hlbc⟩
  have hexTo : ∃ a, List.find? (fun a => decide (a.id = toA))
      db.accounts = some a ∧ a.currency = tc := ⟨toAcc, hTA, hTAc⟩
  have hnexT : ¬ ∃ a, List.find? (fun a => decide (a.id = liqT))
      db.accounts = some a ∧ a.currency = fc := by
    rintro ⟨a, ha, hac⟩
    rw [hlb] at ha
    obtain rfl : lb = a := by injection ha
    exact h4 (by rw [← hac, hlbc])
  have hnexTo : ¬ ∃ a, List.find? (fun a => decide (a.id = toA))
      db.accounts = some a ∧ a.currency = fc := by
    rintro ⟨a, ha, hac⟩
    rw [hTA] at ha
    obtain rfl : toAcc = a := by injection ha
    exact h4 (by rw [← hac, hTAc])
  have hnexF : ¬ ∃ a, List.find? (fun a => decide (a.id = fromA))
      db.accounts = some a ∧ a.currency = tc := by
    rintro ⟨a, ha, hac⟩
    rw [hFA] at ha
    obtain rfl : fromAcc = a := by injection ha
    exact h4 (by rw [← hFAc, hac])
  have hnexS : ¬ ∃ a, List.find? (fun a => decide (a.id = liqS))
      db.accounts = some a ∧ a.currency = tc := by
    rintro ⟨a, ha, hac⟩
    rw [hla] at ha
    obtain rfl : la = a := by injection ha
    exact h4 (by rw [← hlac, hac])
  refine ⟨?_, ?_, ?_⟩
  · dsimp only
    simp [List.filter_append, hfilter0, NewMoney]
  · dsimp only
    simp only [List.filter_append, hfilter0, entryCurrency, getAccount]
    simp only [hcurAt]
    simp only [List.filter, netAmount, entrySigned]
    simp [hexF, hexS, hnexT, hnexTo, entrySigned,
      DirectionDebit, DirectionCredit]
  · dsimp only
    simp only [List.filter_append, hfilter0, entryCurrency, getAccount]
    simp only [hcurAt]
    simp only [List.filter, netAmount, entrySigned]
    simp [hexT, hexTo, hnexF, hnexS, entrySigned,
      DirectionDebit, DirectionCredit]

/-- Witness input state for C5: two user accounts and the two seeded
liquidity accounts. -/
def fxDB0 : DB :=
  { accounts :=
      [{ id := 1, currency := "USD", balance := 100000000,
         lockedMicros := 0 },
       { id := 2, currency := "EUR", balance := 0, lockedMicros := 0 },
       { id := 100, currency := "USD", balance := 0, lockedMicros := 0 },
       { id := 101, currency := "EUR", balance := 0, lockedMicros := 0 }],
    transactions := [], entries := [], payouts := [], auditLog := [] }

/-- Witness state after the exchange of C5 (per the spec scenario, 100 USD
at rate 0.92 gives 92 EUR; the target liquidity account goes negative). -/
def fxDB1 : DB :=
  { accounts :=
      [{ id := 1, currency := "USD", balance := 0, lockedMicros := 0 },
       { id := 2, currency := "EUR", balance := 92000000,
         lockedMicros := 0 },
       { id := 100, currency := "USD", balance := 100000000,
         lockedMicros := 0 },
       { id := 101, currency := "EUR", balance := -92000000,
         lockedMicros := 0 }],
    transactions :=
      [{ id := 50, amount := 100000000, currency := "USD",
         type := "exchange", status := "COMPLETED", referenceID := "x1",
         fxRate := some { value := 92, exp := -2 },
         metadata := Meta.exchange "USD" "EUR" 92000000 }],
    entries :=
      [{ id := 51, transactionID := 50, accountID := 1,
         amount := 100000000, direction := "debit" },
       { id := 52, transactionID := 50, accountID := 100,
         amount := 100000000, direction := "credit" },
       { id := 53, transactionID := 50, accountID := 101,
         amount := 92000000, direction := "debit" },
       { id := 54, transactionID := 50, accountID := 2,
         amount := 92000000, direction := "credit" }],
    payouts := [],
    auditLog :=
      [{ entityType := "transaction", entityID := 50,
         actorID := Option.none, action := "created",
         prevState := Option.none, nextState := some "PENDING",
         metadata := Meta.none },
       { entityType := "transaction", entityID := 50,
         actorID := Option.none, action := "processing_started",
         prevState := some "PENDING", nextState := some "PROCESSING",
         metadata := Meta.none },
       { entityType := "transaction", entityID := 50,
         actorID := Option.none, action := "completed",
         prevState := some "PROCESSING", nextState := some "COMPLETED",
         metadata := Meta.none }] }

/-- Witness result transaction of the C5 exchange. -/
def fxT1 : RetTxn :=
  { id := 50, amount := 100000000, currency := "USD", type := "exchange",
    status := "COMPLETED", referenceID := "x1",
    fxRate := some { value := 92, exp := -2 } }

/-- Witness for C5 at the spec FX scenario. -/
theorem exchange_four_entries_witness :
    fxDB1.entries.filter (fun e => e.transactionID = 50) =
      [{ id := 51, transactionID := 50, accountID := 1,
         amount := 100000000, direction := DirectionDebit },
       { id := 52, transactionID := 50, accountID := 100,
         amount := 100000000, direction := DirectionCredit },
       { id := 53, transactionID := 50, accountID := 101,
         amount := ((NewMoney 100000000 "USD").convert "EUR"
           { value := 92, exp := -2 }).amount,
         direction := DirectionDebit },
       { id := 54, transactionID := 50, accountID := 2,
         amount := ((NewMoney 100000000 "USD").convert "EUR"
           { value := 92, exp := -2 }).amount,
         direction := DirectionCredit }]
    ∧ netAmount ((fxDB1.entries.filter
        (fun e => e.transactionID = 50)).filter
        (fun e => entryCurrency fxDB1 e = some "USD")) = 0
    ∧ netAmount ((fxDB1.entries.filter
        (fun e => e.transactionID = 50)).filter
        (fun e => entryCurrency fxDB1 e = some "EUR")) = 0 :=
  exchange_four_entries fxDB0 fxDB1 fxT1 1 2 100 101 100000000
    "USD" "EUR" "x1" { value := 92, exp := -2 } 50 51 52 53 54
    (by decide) (by decide) (by decide) rfl rfl
    ⟨{ id := 100, currency := "USD", balance := 0, lockedMicros := 0 },
      by decide, by decide⟩
    ⟨{ id := 101, currency := "EUR", balance := 0, lockedMicros := 0 },
      by decide, by decide⟩
    rfl

/-- Query GetPayoutByTransactionID. -/
def getPayoutByTransactionID (db : DB) (txid : Nat) : Option PayoutRow :=
  db.payouts.find? (fun p => p.transactionID = txid)

/-- Query InsertPayout. -/
def insertPayout (db : DB) (p : PayoutRow) : DB :=
  { db with payouts := db.payouts ++ [p] }

/-- Go error rendering (err.Error()), abstracted: the services only pass
these strings into log fields and reason metadata. -/
def errMessage : SvcError → String
  | .invalidAmount => "amount must be greater than zero"
  | .referenceRequired => "reference_id is required"
  | .sameAccountTransfer => "cannot transfer to the same account"
  | .currencyMismatch => "currency mismatch"
  | .sameCurrencyExchange => "source and target currency must be different"
  | .insufficientFunds => "insufficient funds"
  | .invalidTransition => "invalid transaction state transition"
  | .rowsMismatch => "affected unexpected rows"
  | .notFound => "not found"
  | .payloadMismatch => "deposit payload does not match existing reference"
  | .inProgress => "deposit is still processing"
  | .hashMismatch => "idempotency key body mismatch"
  | .unsupportedState => "existing reference in unsupported state"
  | .unsupportedCurrency => "unsupported currency"
  | .other msg => msg

/-- Request object of PayoutService.RequestPayout; the destination payload
is inlined (iban, name). -/
structure RequestPayoutRequest where
  accountID : Nat
  amountMicros : Int
  currency : String
  destIBAN : String
  destName : String
  referenceID : String
  deriving Repr, DecidableEq

/-- Response of PayoutService.RequestPayout. -/
structure PayoutResponse where
  payoutID : Nat
  status : String
  message : String
  deriving Repr, DecidableEq

/-- The RunInTx closure of RequestPayout: lock the account, check the
available balance (balance minus locked) and the currency, lock the funds,
create the payout transaction with audit, insert the payout row. The
CreateTransaction insert enforces the unique reference constraint of the
transactions table, which in this sequential model is checked right at the
insert. -/
def requestPayoutBody (db : DB) (req : RequestPayoutRequest)
    (txid pid : Nat) : Except SvcError DB :=
  match getAccount db req.accountID with
  | Option.none => .error .insufficientFunds
  | some accountRow =>
    if accountRow.balance - accountRow.lockedMicros < req.amountMicros then
      .error .insufficientFunds
    else if accountRow.currency ≠ req.currency then
      .error .currencyMismatch
    else
      match lockAccountFunds db req.amountMicros req.accountID with
      | (db1, rows) =>
        match requireExactlyOne rows with
        | .error e => .error e
        | .ok _ =>
          if db1.transactions.countP
              (fun t => t.referenceID = req.referenceID) ≠ 0 then
            .error (.other "unique violation")
          else
            let db2 := createTransaction db1
              { id := txid, amount := req.amountMicros,
                currency := req.currency, type := TxTypePayout,
                status := TxStatusPending,
                referenceID := req.referenceID, fxRate := Option.none,
                metadata := Meta.dest req.destIBAN req.destName }
            let db3 := insertAuditLog db2
              { entityType := "transaction", entityID := txid,
                actorID := Option.none, action := "created",
                prevState := textParam "",
                nextState := textParam TxStatusPending,
                metadata := Meta.dest req.destIBAN req.destName }
            let db4 := insertPayout db3
              { id := pid, transactionID := txid,
                accountID := req.accountID,
                amountMicros := req.amountMicros,
                currency := req.currency,
                status := PayoutStatusPending,
                gatewayRef := Option.none }
            .ok db4

/-- Method PayoutService.RequestPayout: validate, replay on an existing
reference with a payout row, otherwise run the transactional body. -/
def requestPayout (db : DB) (req : RequestPayoutRequest) (txid pid : Nat) :
    Except SvcError (DB × PayoutResponse) :=
  if req.amountMicros ≤ 0 then .error .invalidAmount
  else if req.referenceID = "" then .error .referenceRequired
  else if req.destIBAN = "" then
    .error (.other "destination.iban is required")
  else if req.destName = "" then
    .error (.other "destination.name is required")
  else
    match checkTransactionIdempotency db req.referenceID with
    | some existingTxRow =>
      match getPayoutByTransactionID db existingTxRow.id with
      | some existingPayout =>
        .ok (db,
          { payoutID := existingPayout.id,
            status := existingPayout.status,
            message := "Payout already exists" })
      | Option.none =>
        match requestPayoutBody db req txid pid with
        | .error e => .error e
        | .ok db1 =>
          .ok (db1,
            { payoutID := pid, status := PayoutStatusPending,
              message := "Payout queued for processing" })
    | Option.none =>
      match requestPayoutBody db req txid pid with
      | .error e => .error e
      | .ok db1 =>
        .ok (db1,
          { payoutID := pid, status := PayoutStatusPending,
            message := "Payout queued for processing" })

/-- The RunInTx closure of handlePayoutSuccess: deduct the locked amount
from both locked_micros and balance, write the user debit and the system
credit entries, mirror the credit on the system account balance, complete
the transaction and mark the payout COMPLETED with the gateway
reference. -/
def handlePayoutSuccessTx (db : DB) (payoutID accountID : Nat)
    (amount : Int) (currency : String) (transactionID : Nat)
    (gatewayRef : String) (eDebit eCredit : Nat) : Except SvcError DB :=
  match deductLockedFunds db amount accountID with
  | (db1, r1) =>
  match requireExactlyOne r1 with
  | .error e => .error e
  | .ok _ =>
  match getSystemAccountID currency with
  | .error e => .error e
  | .ok systemAccountID =>
  let db2 := createEntry db1
    { id := eDebit, transactionID := transactionID,
      accountID := accountID, amount := amount,
      direction := DirectionDebit }
  let db3 := createEntry db2
    { id := eCredit, transactionID := transactionID,
      accountID := systemAccountID, amount := amount,
      direction := DirectionCredit }
  match updateAccountBalance db3 amount systemAccountID with
  | (db4, r2) =>
  match requireExactlyOne r2 with
  | .error e => .error e
  | .ok _ =>
  match transitionTransactionState db4 transactionID TxStatusCompleted
      Option.none "payout_completed" Meta.none with
  | .error e => .error e
  | .ok db5 =>
  match updatePayoutStatus db5 PayoutStatusCompleted (some gatewayRef)
      payoutID with
  | (db6, r3) =>
  match requireExactlyOne r3 with
  | .error e => .error e
  | .ok _ => .ok db6

/-- Function markPayoutManualReview: outside any transaction, set the
payout to MANUAL_REVIEW keeping the gateway reference, then best-effort
write the audit note (skipped when the status update did not hit exactly
one row or the payout cannot be read back). Funds are not touched. -/
def markPayoutManualReview (db : DB) (payoutID : Nat)
    (gatewayRef reason : String) : DB :=
  match updatePayoutStatus db PayoutStatusManualReview (some gatewayRef)
      payoutID with
  | (db1, rows) =>
    if rows ≠ 1 then db1
    else
      match getPayout db1 payoutID with
      | Option.none => db1
      | some row =>
        insertAuditLog db1
          { entityType := "transaction", entityID := row.transactionID,
            actorID := Option.none, action := "payout_manual_review",
            prevState := some TxStatusProcessing,
            nextState := some TxStatusProcessing,
            metadata := Meta.reason reason }

/-- Method handlePayoutSuccess: run the finalization transaction; if it
fails (including a commit failure injected through commitFailure, standing
for the database transaction failing after the gateway succeeded), all its
effects are rolled back and the payout is marked for manual review on the
pre-transaction state, with the error returned. -/
def handlePayoutSuccess (db : DB) (payoutID accountID : Nat)
    (amount : Int) (currency : String) (transactionID : Nat)
    (gatewayRef : String) (eDebit eCredit : Nat)
    (commitFailure : Option SvcError) : DB × Option SvcError :=
  let res :=
    match handlePayoutSuccessTx db payoutID accountID amount currency
        transactionID gatewayRef eDebit eCredit with
    | .error e => Except.error e
    | .ok db1 =>
      match commitFailure with
      | some e => Except.error e
      | Option.none => Except.ok db1
  match res with
  | .ok db1 => (db1, Option.none)
  | .error e =>
    (markPayoutManualReview db payoutID gatewayRef (errMessage e), some e)

/-- Updating a payout status rewrites exactly the matching row when it is
looked up again. -/
theorem getPayout_updatePayoutStatus (db : DB) (s : String)
    (g : Option String) (pid : Nat) :
    getPayout (updatePayoutStatus db s g pid).1 pid =
      (getPayout db pid).map (fun q =>
        if q.id = pid then { q with status := s, gatewayRef := g }
        else q) := by
  unfold getPayout updatePayoutStatus
  dsimp only
  rw [List.find?_map]
  have hp : ((fun q : PayoutRow => decide (q.id = pid)) ∘ (fun q =>
      if q.id = pid then { q with status := s, gatewayRef := g }
      else q)) = (fun q : PayoutRow => decide (q.id = pid)) := by
    funext q
    by_cases h : q.id = pid <;> simp [Function.comp, h]
  rw [hp]

/-- Claim C1: when the gateway reported success but the local finalization
transaction then fails (commit failure injected as commitFailure), the
error is reported, the payout row is moved to MANUAL_REVIEW with the
gateway reference recorded (so it is neither marked FAILED nor requeued as
PENDING), the accounts table is untouched, and in particular the payout
account still holds the payout amount in locked_micros. -/
theorem payout_manual_review_on_commit_failure (db : DB)
    (payoutID accountID : Nat) (amount : Int) (currency : String)
    (transactionID : Nat) (gatewayRef : String) (eD eC : Nat)
    (e : SvcError) (p : PayoutRow) (acc : Account)
    (hp : getPayout db payoutID = some p)
    (hone : db.payouts.countP (fun q => q.id = payoutID) = 1)
    (hacc : getAccount db accountID = some acc)
    (hlocked : amount ≤ acc.lockedMicros) :
    ((handlePayoutSuccess db payoutID accountID amount currency
        transactionID gatewayRef eD eC (some e)).2).isSome = true
    ∧ getPayout (handlePayoutSuccess db payoutID accountID amount currency
        transactionID gatewayRef eD eC (some e)).1 payoutID =
      some { p with
        status := PayoutStatusManualReview,
        gatewayRef := some gatewayRef }
    ∧ (handlePayoutSuccess db payoutID accountID amount currency
        transactionID gatewayRef eD eC (some e)).1.accounts = db.accounts
    ∧ getAccount (handlePayoutSuccess db payoutID accountID amount
        currency transactionID gatewayRef eD eC (some e)).1 accountID =
      some acc
    ∧ amount ≤ acc.lockedMicros := by
  have hpid : p.id = payoutID := by
    have := List.find?_some hp
    simpa using this
  have hmark : ∀ reason, markPayoutManualReview db payoutID gatewayRef
      reason =
      insertAuditLog (updatePayoutStatus db PayoutStatusManualReview
        (some gatewayRef) payoutID).1
        { entityType := "transaction",
          entityID := ({ p with
            status := PayoutStatusManualReview,
            gatewayRef := some gatewayRef } : PayoutRow).transactionID,
          actorID := Option.none, action := "payout_manual_review",
          prevState := some TxStatusProcessing,
          nextState := some TxStatusProcessing,
          metadata := Meta.reason reason } := by
    intro reason
    unfold markPayoutManualReview
    have hrows : (updatePayoutStatus db PayoutStatusManualReview
        (some gatewayRef) payoutID).2 = 1 := by
      simpa [updatePayoutStatus] using hone
    have hget : getPayout (updatePayoutStatus db PayoutStatusManualReview
        (some gatewayRef) payoutID).1 payoutID =
        some { p with
          status := PayoutStatusManualReview,
          gatewayRef := some gatewayRef } := by
      rw [getPayout_updatePayoutStatus, hp]
      simp [hpid]
    simp only [markPayoutManualReview, updatePayoutStatus, getPayout]
    rw [hone]
    rw [if_neg (by decide)]
    have hget2 : List.find? (fun q => decide (q.id = payoutID))
        (db.payouts.map (fun q => if q.id = payoutID then
          { q with
            status := PayoutStatusManualReview,
            gatewayRef := some gatewayRef }
          else q)) =
        some { p with
          status := PayoutStatusManualReview,
          gatewayRef := some gatewayRef } := by
      simpa [getPayout, updatePayoutStatus] using hget
    rw [hget2]
  have haccounts : ∀ reason, (markPayoutManualReview db payoutID
      gatewayRef reason).accounts = db.accounts := by
    intro reason
    rw [hmark reason]
    simp [insertAuditLog, updatePayoutStatus]
  have hpayout : ∀ reason, getPayout (markPayoutManualReview db payoutID
      gatewayRef reason) payoutID =
      some { p with
        status := PayoutStatusManualReview,
        gatewayRef := some gatewayRef } := by
    intro reason
    rw [hmark reason]
    rw [show getPayout (insertAuditLog (updatePayoutStatus db
        PayoutStatusManualReview (some gatewayRef) payoutID).1 _)
        payoutID = getPayout (updatePayoutStatus db
        PayoutStatusManualReview (some gatewayRef) payoutID).1 payoutID
      from rfl]
    rw [getPayout_updatePayoutStatus, hp]
    simp [hpid]
  rcases hb : handlePayoutSuccessTx db payoutID accountID amount currency
      transactionID gatewayRef eD eC with e2 | db1 <;>
    simp only [handlePayoutSuccess, hb] <;>
    refine ⟨rfl, hpayout _, haccounts _, ?_, hlocked⟩ <;>
    · rw [show getAccount (markPayoutManualReview db payoutID gatewayRef
        _) accountID = ((markPayoutManualReview db payoutID gatewayRef
        _).accounts.find? (fun a => a.id = accountID)) from rfl]
      rw [haccounts _]
      exact hacc

/-- Witness database for C1: one claimed payout with its funds locked. -/
def mrDB : DB :=
  { accounts :=
      [{ id := 1, currency := "USD", balance := 2000000,
         lockedMicros := 500000 }],
    transactions :=
      [{ id := 20, amount := 500000, currency := "USD", type := "payout",
         status := "PROCESSING", referenceID := "p1",
         fxRate := Option.none, metadata := Meta.none }],
    entries := [],
    payouts :=
      [{ id := 7, transactionID := 20, accountID := 1,
         amountMicros := 500000, currency := "USD",
         status := "PROCESSING", gatewayRef := Option.none }],
    auditLog := [] }

/-- Witness for C1: a commit failure after gateway success moves the
payout to MANUAL_REVIEW with the reference kept and leaves the account
untouched. -/
theorem payout_manual_review_witness :
    ((handlePayoutSuccess mrDB 7 1 500000 "USD" 20 "MOCK-REF" 30 31
        (some (SvcError.other "commit failed"))).2).isSome = true
    ∧ getPayout (handlePayoutSuccess mrDB 7 1 500000 "USD" 20 "MOCK-REF"
        30 31 (some (SvcError.other "commit failed"))).1 7 =
      some
        { id := 7, transactionID := 20, accountID := 1,
          amountMicros := 500000, currency := "USD",
          status := PayoutStatusManualReview,
          gatewayRef := some "MOCK-REF" }
    ∧ (handlePayoutSuccess mrDB 7 1 500000 "USD" 20 "MOCK-REF" 30 31
        (some (SvcError.other "commit failed"))).1.accounts =
      mrDB.accounts
    ∧ getAccount (handlePayoutSuccess mrDB 7 1 500000 "USD" 20 "MOCK-REF"
        30 31 (some (SvcError.other "commit failed"))).1 1 =
      some
        { id := 1, currency := "USD", balance := 2000000,
          lockedMicros := 500000 }
    ∧ (500000 : Int) ≤ 500000 :=
  payout_manual_review_on_commit_failure mrDB 7 1 500000 "USD" 20
    "MOCK-REF" 30 31 (SvcError.other "commit failed")
    { id := 7, transactionID := 20, accountID := 1,
      amountMicros := 500000, currency := "USD", status := "PROCESSING",
      gatewayRef := Option.none }
    { id := 1, currency := "USD", balance := 2000000,
      lockedMicros := 500000 }
    (by decide) (by decide) (by decide) (by decide)


/-! ### Webhook service (internal/service/webhook.go) -/

/-- Uppercasing at the character level (strings.ToUpper), kernel
evaluable. -/
def strUpper (s : String) : String :=
  String.mk (s.data.map Char.toUpper)

/-- Function isValidCurrency: the supported-currency switch. -/
def isValidCurrency (currency : String) : Bool :=
  currency == "USD" || currency == "EUR" || currency == "GBP"

/-- Incoming deposit webhook payload (account_id reaches the service as a
string UUID; it is modelled already parsed, as the dispatch logic never
depends on its text form). -/
structure DepositWebhookPayload where
  accountID : Nat
  amountMicros : Int
  currency : String
  reference : String
  deriving Repr, DecidableEq

/-- Response of WebhookService.HandleDepositWebhook. -/
structure DepositWebhookResponse where
  transactionID : Nat
  status : String
  message : String
  deriving Repr, DecidableEq

/-- The RunInTx closure of HandleDepositWebhook: lock the deposit account
and check its currency; on a retry of a FAILED reference transition the
existing transaction back to PROCESSING, otherwise create the PENDING
deposit transaction with its audit row and move it to PROCESSING; then
write the system debit and user credit entries, credit the user account
and debit the system liquidity account with exactly-one checks, and
complete the transaction. -/
def depositTxBody (db : DB) (accountID : Nat) (amount : Int)
    (currency reference : String) (retryExisting : Bool)
    (transactionID sysID : Nat) (md : Meta) (eD eC : Nat) :
    Except SvcError DB :=
  match getAccount db accountID with
  | Option.none => .error .notFound
  | some accountRow =>
  if accountRow.currency ≠ currency then .error .currencyMismatch
  else
    match
      (if retryExisting then
        transitionTransactionState db transactionID TxStatusProcessing
          Option.none "retry_processing_started" md
      else
        transitionTransactionState
          (insertAuditLog
            (createTransaction db
              { id := transactionID, amount := amount,
                currency := currency, type := TxTypeDeposit,
                status := TxStatusPending, referenceID := reference,
                fxRate := Option.none, metadata := md })
            { entityType := "transaction", entityID := transactionID,
              actorID := Option.none, action := "created",
              prevState := textParam "",
              nextState := textParam TxStatusPending, metadata := md })
          transactionID TxStatusProcessing Option.none
          "processing_started" Meta.none) with
    | .error e => .error e
    | .ok db3 =>
    let db4 := createEntry db3
      { id := eD, transactionID := transactionID, accountID := sysID,
        amount := amount, direction := DirectionDebit }
    let db5 := createEntry db4
      { id := eC, transactionID := transactionID, accountID := accountID,
        amount := amount, direction := DirectionCredit }
    match updateAccountBalance db5 amount accountID with
    | (db6, r1) =>
    match requireExactlyOne r1 with
    | .error e => .error e
    | .ok _ =>
    match updateAccountBalance db6 (-amount) sysID with
    | (db7, r2) =>
    match requireExactlyOne r2 with
    | .error e => .error e
    | .ok _ =>
    match transitionTransactionState db7 transactionID TxStatusCompleted
        Option.none "completed" Meta.none with
    | .error e => .error e
    | .ok db8 => .ok db8

/-- The tail of HandleDepositWebhook after the idempotency dispatch:
resolve the system liquidity account, run the transactional body (with an
injectable commit failure), and on failure of a non-retry deposit
best-effort mark the fresh transaction FAILED in its own transaction
(a no-rows failure there is swallowed, any other failure is reported
combined with the deposit error). -/
def depositProcess (db : DB) (accountID : Nat) (amount : Int)
    (currency reference : String) (retryExisting : Bool)
    (transactionID eD eC : Nat) (commitFailure : Option SvcError) :
    DB × Except SvcError DepositWebhookResponse :=
  match getSystemAccountID currency with
  | .error e => (db, .error e)
  | .ok systemAccountID =>
    let md := Meta.webhook reference (toString accountID)
    let res :=
      match depositTxBody db accountID amount currency reference
          retryExisting transactionID systemAccountID md eD eC with
      | .error e => Except.error e
      | .ok db1 =>
        match commitFailure with
        | some e => Except.error e
        | Option.none => Except.ok db1
    match res with
    | .ok db1 =>
      (db1, .ok
        { transactionID := transactionID, status := TxStatusCompleted,
          message := "Deposit processed successfully" })
    | .error e =>
      if retryExisting then (db, .error e)
      else
        match transitionTransactionState db transactionID TxStatusFailed
            Option.none "failed" (Meta.reason "deposit_failed") with
        | .ok dbf => (dbf, .error e)
        | .error .notFound => (db, .error e)
        | .error fe =>
          (db, .error (.other (errMessage e ++
            " (status update failed: " ++ errMessage fe ++ ")")))

/-- Method WebhookService.HandleDepositWebhook (after signature checking
and JSON decoding at the boundary): normalize the payload, validate it,
then dispatch on an existing transaction holding the reference — payload
mismatch, completed replay, in-progress rejection, or a retry reusing the
existing transaction id — and otherwise process a fresh deposit. -/
def handleDepositWebhook (db : DB) (payload : DepositWebhookPayload)
    (freshTxID eD eC : Nat) (commitFailure : Option SvcError) :
    DB × Except SvcError DepositWebhookResponse :=
  let currency := normalizeState payload.currency
  let reference := String.mk (strTrim payload.reference)
  if payload.amountMicros ≤ 0 then (db, .error .invalidAmount)
  else if reference = "" then (db, .error .referenceRequired)
  else if ¬ isValidCurrency currency then (db, .error .unsupportedCurrency)
  else
    match checkTransactionIdempotency db reference with
    | some existingTxRow =>
      if existingTxRow.type ≠ TxTypeDeposit ∨
          existingTxRow.amount ≠ payload.amountMicros ∨
          existingTxRow.currency ≠ currency then
        (db, .error .payloadMismatch)
      else if strUpper existingTxRow.status = TxStatusCompleted then
        (db, .ok
          { transactionID := existingTxRow.id,
            status := existingTxRow.status,
            message := "Deposit already processed" })
      else if strUpper existingTxRow.status = TxStatusPending ∨
          strUpper existingTxRow.status = TxStatusProcessing then
        (db, .error .inProgress)
      else if strUpper existingTxRow.status = TxStatusFailed then
        depositProcess db payload.accountID payload.amountMicros currency
          reference true existingTxRow.id eD eC commitFailure
      else (db, .error .unsupportedState)
    | Option.none =>
      depositProcess db payload.accountID payload.amountMicros currency
        reference false freshTxID eD eC commitFailure


/-- A successful state transition leaves accounts, entries and payouts
untouched and preserves the number of transaction rows. -/
theorem transition_preserves (db db1 : DB) (txid : Nat) (s : String)
    (a : Option Nat) (act : String) (md : Meta)
    (h : transitionTransactionState db txid s a act md = .ok db1) :
    db1.accounts = db.accounts ∧ db1.entries = db.entries ∧
      db1.payouts = db.payouts ∧
      db1.transactions.length = db.transactions.length := by
  rcases hg : getTransactionStatusForUpdate db txid with _ | cur
  · rw [transitionTransactionState, hg] at h
    cases h
  · rw [transitionTransactionState, hg] at h
    dsimp only at h
    by_cases he : normalizeState cur = normalizeState s
    · rw [if_pos he] at h
      cases h
      exact ⟨rfl, rfl, rfl, rfl⟩
    · rw [if_neg he] at h
      by_cases hc : canTransition cur s = true
      · rw [if_neg (by simp [hc])] at h
        simp only [updateTransactionStatus] at h
        by_cases hr : db.transactions.countP (fun t => t.id = txid) = 1
        · rw [if_neg (by simp [hr])] at h
          rw [Except.ok.injEq] at h
          subst h
          simp [insertAuditLog]
        · rw [if_pos (by simp [hr])] at h
          cases h
      · rw [if_pos (by simp [hc])] at h
        cases h


/-- A successful retry run of the deposit transaction body creates no new
transaction row and appends exactly the system debit and user credit
entries for the reused transaction id. -/
theorem depositTxBody_retry_effects (db db1 : DB) (accountID : Nat)
    (amount : Int) (currency reference : String)
    (transactionID sysID : Nat) (md : Meta) (eD eC : Nat)
    (h : depositTxBody db accountID amount currency reference true
      transactionID sysID md eD eC = .ok db1) :
    db1.transactions.length = db.transactions.length ∧
    db1.entries = db.entries ++
      [{ id := eD, transactionID := transactionID, accountID := sysID,
         amount := amount, direction := DirectionDebit },
       { id := eC, transactionID := transactionID,
         accountID := accountID, amount := amount,
         direction := DirectionCredit }] := by
  rw [depositTxBody] at h
  rcases hacc : getAccount db accountID with _ | accountRow
  · rw [hacc] at h; cases h
  rw [hacc] at h
  dsimp only at h
  by_cases hcur : accountRow.currency ≠ currency
  · rw [if_pos hcur] at h; cases h
  rw [if_neg hcur, if_pos rfl] at h
  rcases htr : transitionTransactionState db transactionID
      TxStatusProcessing Option.none "retry_processing_started" md
    with e | db3
  · rw [htr] at h; cases h
  rw [htr] at h
  dsimp only at h
  obtain ⟨hacc3, hent3, hpay3, hlen3⟩ :=
    transition_preserves db db3 transactionID TxStatusProcessing
      Option.none "retry_processing_started" md htr
  simp only [createEntry, updateAccountBalance, requireExactlyOne] at h
  by_cases hr1 : db3.accounts.countP (fun a => a.id = accountID) = 1
  case neg => rw [if_neg hr1] at h; cases h
  rw [if_pos hr1] at h
  dsimp only at h
  by_cases hr2 : (db3.accounts.map (fun a =>
      if a.id = accountID then { a with balance := a.balance + amount }
      else a)).countP (fun a => a.id = sysID) = 1
  case neg => rw [if_neg hr2] at h; cases h
  rw [if_pos hr2] at h
  dsimp only at h
  rcases htr2 : transitionTransactionState
      { accounts :=
          (db3.accounts.map (fun a =>
            if a.id = accountID then
              { a with balance := a.balance + amount }
            else a)).map (fun a =>
            if a.id = sysID then { a with balance := a.balance + -amount }
            else a),
        transactions := db3.transactions,
        entries := db3.entries ++
          [{ id := eD, transactionID := transactionID, accountID := sysID,
             amount := amount, direction := DirectionDebit }] ++
          [{ id := eC, transactionID := transactionID,
             accountID := accountID, amount := amount,
             direction := DirectionCredit }],
        payouts := db3.payouts, auditLog := db3.auditLog }
      transactionID TxStatusCompleted Option.none "completed" Meta.none
    with e | db8
  · rw [htr2] at h; cases h
  rw [htr2] at h
  rw [Except.ok.injEq] at h
  subst h
  obtain ⟨hacc8, hent8, hpay8, hlen8⟩ := transition_preserves _ _ _ _ _ _ _ htr2
  refine ⟨?_, ?_⟩
  · rw [hlen8]
    dsimp only
    exact hlen3
  · rw [hent8]
    dsimp only
    rw [hent3, List.append_assoc]
    rfl



/-- Claim C7: when HandleDepositWebhook finds an existing transaction for
the payload reference, it dispatches exactly as specified: a stored
(type, amount, currency) differing from (deposit, payload amount, payload
currency) yields PayloadMismatch with the state untouched; a COMPLETED
transaction yields a replay response without writes; PENDING or
PROCESSING yields InProgress without writes; and a FAILED transaction is
retried reusing the same transaction id — any successful retry responds
with that id, creates no new transaction row, and appends exactly the two
ledger entries (system debit, user credit) referencing that id. -/
theorem webhook_dispatch (db : DB) (payload : DepositWebhookPayload)
    (freshTxID eD eC : Nat) (commitFailure : Option SvcError) (t : Txn)
    (hamt : 0 < payload.amountMicros)
    (href : String.mk (strTrim payload.reference) ≠ "")
    (hcurr : isValidCurrency (normalizeState payload.currency) = true)
    (hfound : checkTransactionIdempotency db
      (String.mk (strTrim payload.reference)) = some t) :
    ((t.type ≠ TxTypeDeposit ∨ t.amount ≠ payload.amountMicros ∨
        t.currency ≠ normalizeState payload.currency) →
      handleDepositWebhook db payload freshTxID eD eC commitFailure =
        (db, .error .payloadMismatch))
    ∧ (t.type = TxTypeDeposit → t.amount = payload.amountMicros →
        t.currency = normalizeState payload.currency →
      (strUpper t.status = TxStatusCompleted →
        handleDepositWebhook db payload freshTxID eD eC commitFailure =
          (db, .ok
            { transactionID := t.id, status := t.status,
              message := "Deposit already processed" }))
      ∧ ((strUpper t.status = TxStatusPending ∨
            strUpper t.status = TxStatusProcessing) →
        handleDepositWebhook db payload freshTxID eD eC commitFailure =
          (db, .error .inProgress))
      ∧ (strUpper t.status = TxStatusFailed →
        ∀ db1 resp,
          handleDepositWebhook db payload freshTxID eD eC commitFailure =
            (db1, .ok resp) →
          resp.transactionID = t.id
          ∧ db1.transactions.length = db.transactions.length
          ∧ ∃ sysID,
              getSystemAccountID (normalizeState payload.currency) =
                .ok sysID
              ∧ db1.entries = db.entries ++
                [{ id := eD, transactionID := t.id, accountID := sysID,
                   amount := payload.amountMicros,
                   direction := DirectionDebit },
                 { id := eC, transactionID := t.id,
                   accountID := payload.accountID,
                   amount := payload.amountMicros,
                   direction := DirectionCredit }])) := by
  have hred : handleDepositWebhook db payload freshTxID eD eC
      commitFailure =
      (if t.type ≠ TxTypeDeposit ∨ t.amount ≠ payload.amountMicros ∨
          t.currency ≠ normalizeState payload.currency then
        (db, .error .payloadMismatch)
      else if strUpper t.status = TxStatusCompleted then
        (db, .ok
          { transactionID := t.id, status := t.status,
            message := "Deposit already processed" })
      else if strUpper t.status = TxStatusPending ∨
          strUpper t.status = TxStatusProcessing then
        (db, .error .inProgress)
      else if strUpper t.status = TxStatusFailed then
        depositProcess db payload.accountID payload.amountMicros
          (normalizeState payload.currency)
          (String.mk (strTrim payload.reference)) true t.id eD eC
          commitFailure
      else (db, .error .unsupportedState)) := by
    rw [handleDepositWebhook]
    rw [if_neg (not_le.mpr hamt), if_neg href,
      if_neg (not_not_intro hcurr), hfound]
  refine ⟨?_, ?_⟩
  · intro hmis
    rw [hred, if_pos hmis]
  · intro h1 h2 h3
    have hnomis : ¬ (t.type ≠ TxTypeDeposit ∨
        t.amount ≠ payload.amountMicros ∨
        t.currency ≠ normalizeState payload.currency) := by
      push_neg
      exact ⟨h1, h2, h3⟩
    refine ⟨?_, ?_, ?_⟩
    · intro hcomp
      rw [hred, if_neg hnomis, if_pos hcomp]
    · intro hpp
      have hnc : ¬ strUpper t.status = TxStatusCompleted := by
        rcases hpp with h | h <;> rw [h] <;> decide
      rw [hred, if_neg hnomis, if_neg hnc, if_pos hpp]
    · intro hfail db1 resp heq
      have hnc : ¬ strUpper t.status = TxStatusCompleted := by
        rw [hfail]; decide
      have hnpp : ¬ (strUpper t.status = TxStatusPending ∨
          strUpper t.status = TxStatusProcessing) := by
        rw [hfail]; decide
      rw [hred, if_neg hnomis, if_neg hnc, if_neg hnpp, if_pos hfail]
        at heq
      rcases hsys : getSystemAccountID (normalizeState payload.currency)
        with e | sysID
      · rw [depositProcess, hsys] at heq
        cases congrArg Prod.snd heq
      · rw [depositProcess, hsys] at heq
        dsimp only at heq
        rcases hbody : depositTxBody db payload.accountID
            payload.amountMicros (normalizeState payload.currency)
            (String.mk (strTrim payload.reference)) true t.id sysID
            (Meta.webhook (String.mk (strTrim payload.reference))
              (toString payload.accountID)) eD eC
          with e | dbB
        · rw [hbody] at heq
          dsimp only at heq
          rw [if_pos rfl] at heq
          cases congrArg Prod.snd heq
        · rw [hbody] at heq
          dsimp only at heq
          rcases commitFailure with _ | cf
          · dsimp only at heq
            rw [Prod.mk.injEq, Except.ok.injEq] at heq
            obtain ⟨hdb, hresp⟩ := heq
            subst hdb
            subst hresp
            obtain ⟨hlen, hent⟩ := depositTxBody_retry_effects db dbB
              payload.accountID payload.amountMicros
              (normalizeState payload.currency)
              (String.mk (strTrim payload.reference)) t.id sysID
              (Meta.webhook (String.mk (strTrim payload.reference))
                (toString payload.accountID)) eD eC hbody
            exact ⟨rfl, hlen, sysID, rfl, hent⟩
          · dsimp only at heq
            rw [if_pos rfl] at heq
            cases congrArg Prod.snd heq


/-- Witness database for C7: a user account, the USD liquidity account,
and a FAILED deposit transaction holding the reference. -/
def whDB : DB :=
  { accounts :=
      [{ id := 1, currency := "USD", balance := 1000000,
         lockedMicros := 0 },
       { id := 100, currency := "USD", balance := 0, lockedMicros := 0 }],
    transactions :=
      [{ id := 9, amount := 250000, currency := "USD",
         type := "deposit", status := "FAILED", referenceID := "dep-1",
         fxRate := Option.none, metadata := Meta.none }],
    entries := [], payouts := [], auditLog := [] }

/-- Witness payload for C7, matching the FAILED transaction. -/
def whPayload : DepositWebhookPayload :=
  { accountID := 1, amountMicros := 250000, currency := "usd",
    reference := "dep-1" }

/-- Witness for C7: replaying the payload of the FAILED deposit retries it
on the same transaction id — the run succeeds, creates no new transaction
row, and appends exactly the system debit and user credit entries for
transaction 9. -/
theorem webhook_dispatch_witness :
    ({ transactionID := 9, status := TxStatusCompleted,
        message := "Deposit processed successfully" } :
      DepositWebhookResponse).transactionID = 9
    ∧ (handleDepositWebhook whDB whPayload 99 50 51
        Option.none).1.transactions.length = whDB.transactions.length
    ∧ ∃ sysID, getSystemAccountID (normalizeState "usd") = .ok sysID
      ∧ (handleDepositWebhook whDB whPayload 99 50 51
          Option.none).1.entries = whDB.entries ++
        [{ id := 50, transactionID := 9, accountID := sysID,
           amount := 250000, direction := DirectionDebit },
         { id := 51, transactionID := 9, accountID := 1,
           amount := 250000, direction := DirectionCredit }] :=
  (((webhook_dispatch whDB whPayload 99 50 51 Option.none
      { id := 9, amount := 250000, currency := "USD", type := "deposit",
        status := "FAILED", referenceID := "dep-1",
        fxRate := Option.none, metadata := Meta.none }
      (by decide) (by decide) (by decide) rfl).2
    rfl rfl (by decide)).2.2 (by decide))
    (handleDepositWebhook whDB whPayload 99 50 51 Option.none).1
    { transactionID := 9, status := TxStatusCompleted,
      message := "Deposit processed successfully" }
    rfl


/-! ### Reconciliation service (unnamed part_010, reconciliation.sql) -/

/-- Query GetLedgerNet: signed sum of the CASE expression over the whole
entries table. -/
def getLedgerNet (db : DB) : Int :=
  netAmount db.entries

/-- First-occurrence deduplication of grouping keys (the GROUP BY result
order is unspecified in SQL; the model fixes first-appearance order). -/
def dedupeCurrencies (l : List String) : List String :=
  l.foldl (fun acc s => if acc.contains s then acc else acc ++ [s]) []

/-- Query GetLedgerCurrencyImbalances: inner-join entries to accounts,
group by account currency, and keep the groups whose net is nonzero. -/
def getLedgerCurrencyImbalances (db : DB) : List (String × Int) :=
  ((dedupeCurrencies (db.entries.filterMap (entryCurrency db))).map
    (fun c =>
      (c, netAmount (db.entries.filter
        (fun e => entryCurrency db e = some c))))).filter
    (fun row => row.snd ≠ 0)

/-- Prometheus counter state: the increment history of the
ledger imbalance counter of internal/observability, by currency label. -/
structure Metrics where
  ledgerImbalance : List String
  deriving Repr, DecidableEq

/-- Function observability.IncrementLedgerImbalance. -/
def incrementLedgerImbalance (m : Metrics) (currency : String) : Metrics :=
  { m with ledgerImbalance := m.ledgerImbalance ++ [currency] }

/-- Method ReconciliationService.Run: read the ledger net; when it is
nonzero, increment the global imbalance counter and then one counter per
offending currency, and return nil; when it is zero, just log and return
nil. A failing currency-imbalance query is only logged in the source and
changes no counter, so it is not modelled; query transport failures are
I/O faults outside the embedding. -/
def reconciliationRun (db : DB) (m : Metrics) :
    Metrics × Option SvcError :=
  let net := getLedgerNet db
  if net ≠ 0 then
    let m1 := incrementLedgerImbalance m "ALL"
    let m2 := (getLedgerCurrencyImbalances db).foldl
      (fun acc row => incrementLedgerImbalance acc row.fst) m1
    (m2, Option.none)
  else (m, Option.none)

/-- Folding counter increments over a row list appends exactly the row
labels. -/
theorem foldl_increment_append (l : List (String × Int)) (m : Metrics) :
    (l.foldl (fun acc row => incrementLedgerImbalance acc row.fst)
      m).ledgerImbalance = m.ledgerImbalance ++ l.map Prod.fst := by
  induction l generalizing m with
  | nil => simp
  | cons x xs ih =>
    simp only [List.foldl_cons, List.map_cons]
    rw [ih]
    simp [incrementLedgerImbalance]

/-- On entries whose direction satisfies the entries direction check
constraint of migration 000012, the signed net is the credit sum minus
the debit sum. -/
theorem netAmount_split (l : List Entry)
    (hdir : ∀ e ∈ l, e.direction = DirectionCredit ∨
      e.direction = DirectionDebit) :
    netAmount l =
      ((l.filter (fun e => e.direction = DirectionCredit)).map
        (fun e => e.amount)).sum -
      ((l.filter (fun e => e.direction = DirectionDebit)).map
        (fun e => e.amount)).sum := by
  induction l with
  | nil => simp [netAmount]
  | cons x xs ih =>
    have ihx := ih (fun e he => hdir e (by simp [he]))
    rcases hdir x (by simp) with h | h
    · rw [netAmount, List.map_cons, List.sum_cons]
      rw [show (xs.map entrySigned).sum = netAmount xs from rfl]
      rw [show entrySigned x = x.amount from by simp [entrySigned, h]]
      rw [List.filter_cons_of_pos (by simp [h]),
        List.filter_cons_of_neg
          (by simp [h, DirectionCredit, DirectionDebit])]
      rw [List.map_cons, List.sum_cons]
      omega
    · rw [netAmount, List.map_cons, List.sum_cons]
      rw [show (xs.map entrySigned).sum = netAmount xs from rfl]
      rw [show entrySigned x = -x.amount from by
        simp [entrySigned, h, DirectionCredit, DirectionDebit]]
      rw [List.filter_cons_of_neg
          (by simp [h, DirectionCredit, DirectionDebit]),
        List.filter_cons_of_pos (by simp [h])]
      rw [List.map_cons, List.sum_cons]
      omega

/-- Claim C8: Reconciliation.Run never propagates a ledger imbalance as an
error: it always returns nil. The net it checks is Σ(credit) − Σ(debit)
over all entries (given directions within the check constraint); a nonzero
net increments exactly the global ALL counter followed by one counter per
offending currency from the per-currency grouping, and a zero net changes
no counter. -/
theorem reconciliation_run_nil (db : DB) (m : Metrics)
    (hdir : ∀ e ∈ db.entries,
      e.direction = DirectionCredit ∨ e.direction = DirectionDebit) :
    (reconciliationRun db m).2 = Option.none
    ∧ getLedgerNet db =
      ((db.entries.filter (fun e => e.direction = DirectionCredit)).map
        (fun e => e.amount)).sum -
      ((db.entries.filter (fun e => e.direction = DirectionDebit)).map
        (fun e => e.amount)).sum
    ∧ (getLedgerNet db ≠ 0 →
      (reconciliationRun db m).1.ledgerImbalance =
        m.ledgerImbalance ++ ["ALL"] ++
          (getLedgerCurrencyImbalances db).map Prod.fst)
    ∧ (getLedgerNet db = 0 → (reconciliationRun db m).1 = m) := by
  refine ⟨?_, netAmount_split db.entries hdir, ?_, ?_⟩
  · by_cases h0 : getLedgerNet db ≠ 0
    · simp only [reconciliationRun]
      rw [if_pos h0]
    · simp only [reconciliationRun]
      rw [if_neg h0]
  · intro h0
    simp only [reconciliationRun]
    rw [if_pos h0]
    rw [foldl_increment_append]
    simp [incrementLedgerImbalance, List.append_assoc]
  · intro h0
    simp only [reconciliationRun]
    rw [if_neg (not_not_intro h0)]

/-- Witness database for C8: a single unmatched credit entry, so the
ledger net is 5000 and USD is the offending currency. -/
def recDB : DB :=
  { accounts :=
      [{ id := 1, currency := "USD", balance := 5000,
         lockedMicros := 0 }],
    transactions := [],
    entries :=
      [{ id := 1, transactionID := 1, accountID := 1, amount := 5000,
         direction := "credit" }],
    payouts := [], auditLog := [] }

/-- Witness for C8: on the imbalanced ledger, Run still returns nil and
increments exactly the ALL counter and the USD counter. -/
theorem reconciliation_run_nil_witness :
    (reconciliationRun recDB { ledgerImbalance := [] }).2 = Option.none
    ∧ (reconciliationRun recDB
        { ledgerImbalance := [] }).1.ledgerImbalance =
      [] ++ ["ALL"] ++ (getLedgerCurrencyImbalances recDB).map Prod.fst :=
  ⟨(reconciliation_run_nil recDB { ledgerImbalance := [] }
      (by decide)).1,
   (reconciliation_run_nil recDB { ledgerImbalance := [] }
      (by decide)).2.2.1 (by decide)⟩


/-! ### Idempotency store (internal/idempotency/store.go) -/

/-- Row of the idempotency_keys table as returned by GetIdempotencyKey. -/
structure IdempotencyRecord where
  idempotencyKey : String
  requestHash : String
  responseStatus : Int
  responseBody : String
  contentType : String
  inProgress : Bool
  deriving Repr, DecidableEq

/-- Idempotency store state: the idempotency_keys table. The model covers
the database path of Lookup; the optional redis fast path only serves
previously finalized records and applies the same hash check before
returning. -/
structure IdemDB where
  records : List IdempotencyRecord
  deriving Repr, DecidableEq

/-- Query GetIdempotencyKey: select the row by its unique key. -/
def getIdempotencyKey (s : IdemDB) (key : String) :
    Option IdempotencyRecord :=
  s.records.find? (fun r => r.idempotencyKey = key)

/-- The Record value Lookup returns (ServedBy is stamped postgres on the
database path). -/
structure LookupRecord where
  key : String
  requestHash : String
  status : Int
  body : String
  contentType : String
  servedBy : String
  deriving Repr, DecidableEq

/-- Method Store.Lookup on the database path: a missing row is NotFound; a
stored request hash differing from the supplied one is HashMismatch —
checked before in_progress — and only then is an in-progress row reported
InProgress; otherwise the finalized record is returned. -/
def storeLookup (s : IdemDB) (key requestHash : String) :
    Except SvcError LookupRecord :=
  match getIdempotencyKey s key with
  | Option.none => .error .notFound
  | some row =>
    let rec0 : LookupRecord :=
      { key := row.idempotencyKey, requestHash := row.requestHash,
        status := row.responseStatus, body := row.responseBody,
        contentType := row.contentType, servedBy := "" }
    if rec0.requestHash ≠ requestHash then .error .hashMismatch
    else if row.inProgress then .error .inProgress
    else .ok { rec0 with servedBy := "postgres" }

/-- Claim C10: Lookup gives hash mismatch priority over in-progress: any
stored row whose request hash differs from the supplied one yields
HashMismatch even when it is still in progress; InProgress is returned
exactly when the stored hash matches and the row is in progress; and
NotFound exactly when no row exists for the key. -/
theorem lookup_hash_mismatch_priority (s : IdemDB) (key hash : String) :
    (∀ row, getIdempotencyKey s key = some row →
      row.requestHash ≠ hash →
      storeLookup s key hash = .error .hashMismatch)
    ∧ (storeLookup s key hash = .error .inProgress ↔
      ∃ row, getIdempotencyKey s key = some row ∧
        row.requestHash = hash ∧ row.inProgress = true)
    ∧ (storeLookup s key hash = .error .notFound ↔
      getIdempotencyKey s key = Option.none) := by
  rcases hk : getIdempotencyKey s key with _ | row
  · refine ⟨?_, ?_, ?_⟩
    · intro row hrow
      cases hrow
    · rw [storeLookup, hk]
      constructor
      · intro hcontra
        rw [Except.error.injEq] at hcontra
        cases hcontra
      · rintro ⟨row, hrow, -, -⟩
        cases hrow
    · rw [storeLookup, hk]
      exact ⟨fun _ => rfl, fun _ => rfl⟩
  · have hcore : storeLookup s key hash =
        (if row.requestHash ≠ hash then .error .hashMismatch
        else if row.inProgress then .error .inProgress
        else .ok
          { key := row.idempotencyKey, requestHash := row.requestHash,
            status := row.responseStatus, body := row.responseBody,
            contentType := row.contentType, servedBy := "postgres" }) := by
      rw [storeLookup, hk]
    refine ⟨?_, ?_, ?_⟩
    · intro row2 hrow2 hne
      rw [Option.some.injEq] at hrow2
      subst hrow2
      rw [hcore, if_pos hne]
    · by_cases hrh : row.requestHash = hash
      · by_cases hip : row.inProgress = true
        · rw [hcore, if_neg (not_not_intro hrh), if_pos hip]
          simp [hrh, hip]
        · rw [hcore, if_neg (not_not_intro hrh), if_neg hip]
          constructor
          · intro hcontra
            cases hcontra
          · rintro ⟨row2, hrow2, -, hip2⟩
            rw [Option.some.injEq] at hrow2
            subst hrow2
            exact absurd hip2 hip
      · rw [hcore, if_pos hrh]
        constructor
        · intro hcontra
          rw [Except.error.injEq] at hcontra
          cases hcontra
        · rintro ⟨row2, hrow2, hrh2, -⟩
          rw [Option.some.injEq] at hrow2
          subst hrow2
          exact absurd hrh2 hrh
    · constructor
      · intro hcontra
        by_cases hrh : row.requestHash = hash
        · by_cases hip : row.inProgress = true
          · rw [hcore, if_neg (not_not_intro hrh), if_pos hip,
              Except.error.injEq] at hcontra
            cases hcontra
          · rw [hcore, if_neg (not_not_intro hrh), if_neg hip]
              at hcontra
            cases hcontra
        · rw [hcore, if_pos hrh, Except.error.injEq] at hcontra
          cases hcontra
      · intro hcontra
        cases hcontra

/-- Witness store for C10: one in-progress record under key k1. -/
def idemStore : IdemDB :=
  { records :=
      [{ idempotencyKey := "k1", requestHash := "h1",
         responseStatus := 0, responseBody := "", contentType := "",
         inProgress := true }] }

/-- Witness for C10: the in-progress record with a different stored hash
yields HashMismatch, not InProgress, and a matching hash yields
InProgress. -/
theorem lookup_hash_mismatch_priority_witness :
    storeLookup idemStore "k1" "other" = .error .hashMismatch
    ∧ storeLookup idemStore "k1" "h1" = .error .inProgress :=
  ⟨(lookup_hash_mismatch_priority idemStore "k1" "other").1
      { idempotencyKey := "k1", requestHash := "h1",
        responseStatus := 0, responseBody := "", contentType := "",
        inProgress := true }
      (by decide) (by decide),
   (lookup_hash_mismatch_priority idemStore "k1" "h1").2.1.mpr
      ⟨{ idempotencyKey := "k1", requestHash := "h1",
         responseStatus := 0, responseBody := "", contentType := "",
         inProgress := true },
       by decide, by decide, by decide⟩⟩


/-! ### Payout failure path and the core-operation invariant (C2) -/

/-- The RunInTx closure of handlePayoutFailure: release the locked funds,
load the payout to learn its transaction, fail that transaction, and mark
the payout FAILED with the gateway reference cleared. -/
def handlePayoutFailureTx (db : DB) (payoutID accountID : Nat)
    (amount : Int) (reason : String) : Except SvcError DB :=
  match releaseAccountFunds db amount accountID with
  | (db1, r1) =>
  match requireExactlyOne r1 with
  | .error e => .error e
  | .ok _ =>
  match getPayout db1 payoutID with
  | Option.none => .error .notFound
  | some payoutRow =>
  match transitionTransactionState db1 payoutRow.transactionID
      TxStatusFailed Option.none "payout_failed" (Meta.reason reason) with
  | .error e => .error e
  | .ok db2 =>
  match updatePayoutStatus db2 PayoutStatusFailed Option.none payoutID with
  | (db3, r2) =>
  match requireExactlyOne r2 with
  | .error e => .error e
  | .ok _ => .ok db3

/-- Helper updatePayoutFailed: the best-effort fallback when the failure
transaction itself failed. Outside any enclosing transaction it safely
releases the locked funds recorded on the payout row, marks the
transaction FAILED when exactly one row is hit (appending the fallback
audit note), and finally marks the payout FAILED; every error on the way
is only logged. -/
def updatePayoutFailed (db : DB) (payoutID : Nat) (reason : String) :
    DB :=
  let db1 :=
    match getPayout db payoutID with
    | Option.none => db
    | some payoutRow =>
      match releaseAccountFundsSafe db payoutRow.amountMicros
          payoutRow.accountID with
      | (dbA, _) =>
      match updateTransactionStatus dbA TxStatusFailed
          payoutRow.transactionID with
      | (dbB, rows) =>
        if rows = 1 then
          insertAuditLog dbB
            { entityType := "transaction",
              entityID := payoutRow.transactionID,
              actorID := Option.none,
              action := "payout_failed_fallback",
              prevState := textParam "",
              nextState := textParam TxStatusFailed,
              metadata := Meta.reason reason }
        else dbB
  match updatePayoutStatus db1 PayoutStatusFailed Option.none payoutID
    with
  | (db2, _) => db2

/-- Method handlePayoutFailure: run the failure transaction; if it rolls
back, fall back to updatePayoutFailed on the pre-transaction state. -/
def handlePayoutFailure (db : DB) (payoutID accountID : Nat)
    (amount : Int) (reason : String) : DB :=
  match handlePayoutFailureTx db payoutID accountID amount reason with
  | .ok db1 => db1
  | .error e =>
    updatePayoutFailed db payoutID (errMessage e ++ ": " ++ reason)

/-- Whether an id is one of the seeded system liquidity accounts (the
spec exempts them from the locked-funds invariant). -/
def isLiquidityAccount (id : Nat) : Bool :=
  id == SystemAccountUSD || id == SystemAccountEUR ||
    id == SystemAccountGBP

/-- The user-account invariant of the spec on an account list:
locked_micros never exceeds balance_micros outside liquidity accounts. -/
def accountsInvariant (l : List Account) : Prop :=
  ∀ a ∈ l, isLiquidityAccount a.id = false → a.lockedMicros ≤ a.balance

/-- The user-account invariant on the database state. -/
def userInvariant (db : DB) : Prop :=
  accountsInvariant db.accounts

/-- One operation of the transactional core, carrying the fresh ids and
the injected commit outcome it runs with. -/
inductive CoreOp where
  | transferOp (fromA toA : Nat) (amount : Int) (ref : String)
      (txid d1 d2 : Nat)
  | exchangeOp (cmd : TransferExchangeCmd) (rate : Dec)
      (txid e1 e2 e3 e4 : Nat)
  | requestPayoutOp (req : RequestPayoutRequest) (txid pid : Nat)
  | payoutSuccessOp (payoutID accountID : Nat) (amount : Int)
      (currency : String) (transactionID : Nat) (gatewayRef : String)
      (eD eC : Nat) (commitFailure : Option SvcError)
  | payoutFailureOp (payoutID accountID : Nat) (amount : Int)
      (reason : String)
  | depositOp (payload : DepositWebhookPayload) (freshTxID eD eC : Nat)
      (commitFailure : Option SvcError)

/-- The database state after one core operation: a service error means
the surrounding transaction rolled back, so the pre-state is kept; the
payout and webhook handlers return their own post-failure states. -/
def runOp (db : DB) (op : CoreOp) : DB :=
  match op with
  | .transferOp fromA toA amount ref txid d1 d2 =>
    match transfer db fromA toA amount ref txid d1 d2 with
    | .ok (db1, _) => db1
    | .error _ => db
  | .exchangeOp cmd rate txid e1 e2 e3 e4 =>
    match transferExchange db cmd rate txid e1 e2 e3 e4 with
    | .ok (db1, _) => db1
    | .error _ => db
  | .requestPayoutOp req txid pid =>
    match requestPayout db req txid pid with
    | .ok (db1, _) => db1
    | .error _ => db
  | .payoutSuccessOp payoutID accountID amount currency transactionID
      gatewayRef eD eC commitFailure =>
    (handlePayoutSuccess db payoutID accountID amount currency
      transactionID gatewayRef eD eC commitFailure).1
  | .payoutFailureOp payoutID accountID amount reason =>
    handlePayoutFailure db payoutID accountID amount reason
  | .depositOp payload freshTxID eD eC commitFailure =>
    (handleDepositWebhook db payload freshTxID eD eC commitFailure).1

/-- Preconditions the amended claim adds per operation: the sender of a
transfer or exchange must have the amount available net of locked funds
(the code only checks the gross balance), the target amount of an
exchange must be nonnegative (a negative rate would debit the receiver),
and a payout-failure amount is nonnegative, as payout rows are
(payouts_amount_positive_ck). The remaining operations need nothing. -/
def opPrecond (db : DB) (op : CoreOp) : Prop :=
  match op with
  | .transferOp fromA _ amount _ _ _ _ =>
    ∀ a ∈ db.accounts, a.id = fromA →
      amount ≤ a.balance - a.lockedMicros
  | .exchangeOp cmd rate _ _ _ _ _ =>
    (∀ a ∈ db.accounts, a.id = cmd.fromAccountID →
      cmd.amount ≤ a.balance - a.lockedMicros)
    ∧ 0 ≤ ((NewMoney cmd.amount cmd.fromCurrency).convert
        cmd.toCurrency rate).amount
  | .payoutFailureOp _ _ amount _ =>
    0 ≤ amount ∧ ∀ q ∈ db.payouts, 0 ≤ q.amountMicros
  | _ => True

/-- Crediting one id with a nonnegative amount preserves the invariant. -/
theorem accountsInvariant_credit (l : List Account) (i : Nat) (d : Int)
    (hd : 0 ≤ d) (h : accountsInvariant l) :
    accountsInvariant (l.map (fun a =>
      if a.id = i then { a with balance := a.balance + d } else a)) := by
  intro a ha hliq
  rcases List.mem_map.mp ha with ⟨b, hb, hfb⟩
  have hfb2 : (if b.id = i then { b with balance := b.balance + d }
      else b) = a := hfb
  by_cases hbi : b.id = i
  · rw [if_pos hbi] at hfb2
    subst hfb2
    have hone := h b hb hliq
    show b.lockedMicros ≤ b.balance + d
    omega
  · rw [if_neg hbi] at hfb2
    subst hfb2
    exact h b hb hliq

/-- Debiting one id preserves the invariant when every account under the
id has the amount available net of locked funds. -/
theorem accountsInvariant_debit (l : List Account) (i : Nat) (d : Int)
    (havail : ∀ a ∈ l, a.id = i → d ≤ a.balance - a.lockedMicros)
    (h : accountsInvariant l) :
    accountsInvariant (l.map (fun a =>
      if a.id = i then { a with balance := a.balance + -d } else a)) := by
  intro a ha hliq
  rcases List.mem_map.mp ha with ⟨b, hb, hfb⟩
  have hfb2 : (if b.id = i then { b with balance := b.balance + -d }
      else b) = a := hfb
  by_cases hbi : b.id = i
  · rw [if_pos hbi] at hfb2
    subst hfb2
    have hav := havail b hb hbi
    show b.lockedMicros ≤ b.balance + -d
    omega
  · rw [if_neg hbi] at hfb2
    subst hfb2
    exact h b hb hliq

/-- Any balance change on a liquidity id preserves the invariant. -/
theorem accountsInvariant_liq_credit (l : List Account) (i : Nat)
    (d : Int) (hliq : isLiquidityAccount i = true)
    (h : accountsInvariant l) :
    accountsInvariant (l.map (fun a =>
      if a.id = i then { a with balance := a.balance + d } else a)) := by
  intro a ha hal
  rcases List.mem_map.mp ha with ⟨b, hb, hfb⟩
  have hfb2 : (if b.id = i then { b with balance := b.balance + d }
      else b) = a := hfb
  by_cases hbi : b.id = i
  · rw [if_pos hbi] at hfb2
    subst hfb2
    have : isLiquidityAccount b.id = true := by rw [hbi]; exact hliq
    rw [show ({ b with balance := b.balance + d } : Account).id = b.id
      from rfl, this] at hal
    cases hal
  · rw [if_neg hbi] at hfb2
    subst hfb2
    exact h b hb hal

/-- Locking funds preserves the invariant when every account under the id
has the amount available net of locked funds. -/
theorem accountsInvariant_lock (l : List Account) (i : Nat) (d : Int)
    (havail : ∀ a ∈ l, a.id = i → d ≤ a.balance - a.lockedMicros)
    (h : accountsInvariant l) :
    accountsInvariant (l.map (fun a =>
      if a.id = i then { a with lockedMicros := a.lockedMicros + d }
      else a)) := by
  intro a ha hliq
  rcases List.mem_map.mp ha with ⟨b, hb, hfb⟩
  have hfb2 : (if b.id = i then
      { b with lockedMicros := b.lockedMicros + d } else b) = a := hfb
  by_cases hbi : b.id = i
  · rw [if_pos hbi] at hfb2
    subst hfb2
    have hav := havail b hb hbi
    show b.lockedMicros + d ≤ b.balance
    omega
  · rw [if_neg hbi] at hfb2
    subst hfb2
    exact h b hb hliq

/-- Deducting the same amount from locked funds and balance preserves the
invariant unconditionally. -/
theorem accountsInvariant_deduct (l : List Account) (i : Nat) (d : Int)
    (h : accountsInvariant l) :
    accountsInvariant (l.map (fun a =>
      if a.id = i then
        { a with
            lockedMicros := a.lockedMicros - d
            balance := a.balance - d }
      else a)) := by
  intro a ha hliq
  rcases List.mem_map.mp ha with ⟨b, hb, hfb⟩
  have hfb2 : (if b.id = i then
      ({ b with
          lockedMicros := b.lockedMicros - d
          balance := b.balance - d } : Account) else b) = a := hfb
  by_cases hbi : b.id = i
  · rw [if_pos hbi] at hfb2
    subst hfb2
    have hone := h b hb hliq
    show b.lockedMicros - d ≤ b.balance - d
    omega
  · rw [if_neg hbi] at hfb2
    subst hfb2
    exact h b hb hliq

/-- Releasing a nonnegative amount of locked funds preserves the
invariant. -/
theorem accountsInvariant_release (l : List Account) (i : Nat) (d : Int)
    (hd : 0 ≤ d) (h : accountsInvariant l) :
    accountsInvariant (l.map (fun a =>
      if a.id = i then { a with lockedMicros := a.lockedMicros - d }
      else a)) := by
  intro a ha hliq
  rcases List.mem_map.mp ha with ⟨b, hb, hfb⟩
  have hfb2 : (if b.id = i then
      { b with lockedMicros := b.lockedMicros - d } else b) = a := hfb
  by_cases hbi : b.id = i
  · rw [if_pos hbi] at hfb2
    subst hfb2
    have hone := h b hb hliq
    show b.lockedMicros - d ≤ b.balance
    omega
  · rw [if_neg hbi] at hfb2
    subst hfb2
    exact h b hb hliq

/-- The guarded release of ReleaseAccountFundsSafe preserves the
invariant for a nonnegative amount. -/
theorem accountsInvariant_releaseSafe (l : List Account) (i : Nat)
    (d : Int) (hd : 0 ≤ d) (h : accountsInvariant l) :
    accountsInvariant (l.map (fun a =>
      if a.id = i ∧ d ≤ a.lockedMicros then
        { a with lockedMicros := a.lockedMicros - d }
      else a)) := by
  intro a ha hliq
  rcases List.mem_map.mp ha with ⟨b, hb, hfb⟩
  have hfb2 : (if b.id = i ∧ d ≤ b.lockedMicros then
      { b with lockedMicros := b.lockedMicros - d } else b) = a := hfb
  by_cases hbi : b.id = i ∧ d ≤ b.lockedMicros
  · rw [if_pos hbi] at hfb2
    subst hfb2
    have hone := h b hb hliq
    show b.lockedMicros - d ≤ b.balance
    omega
  · rw [if_neg hbi] at hfb2
    subst hfb2
    exact h b hb hliq

/-- With pairwise-distinct account ids (the primary key), any member
matching the looked-up id is the found account. -/
theorem account_mem_eq_find (l : List Account) (i : Nat)
    (x b : Account) :
    l.Pairwise (fun a c => a.id ≠ c.id) →
    l.find? (fun a => a.id = i) = some x →
    b ∈ l → b.id = i → b = x := by
  induction l with
  | nil =>
    intro _ hfind
    cases hfind
  | cons a l ih =>
    intro hpw hfind hb hbi
    by_cases hai : a.id = i
    · rw [List.find?_cons_of_pos _ (by simp [hai])] at hfind
      rw [Option.some.injEq] at hfind
      subst hfind
      rcases List.mem_cons.mp hb with hba | hbl
      · exact hba
      · exact (((List.pairwise_cons.mp hpw).1 b hbl)
          (hai.trans hbi.symm)).elim
    · rw [List.find?_cons_of_neg _ (by simp [hai])] at hfind
      rcases List.mem_cons.mp hb with hba | hbl
      · subst hba
        exact absurd hbi hai
      · exact ih (List.pairwise_cons.mp hpw).2 hfind hbl hbi

/-- A resolved system liquidity account id is a liquidity id. -/
theorem getSystemAccountID_liquidity (c : String) (i : Nat)
    (h : getSystemAccountID c = .ok i) :
    isLiquidityAccount i = true := by
  rw [getSystemAccountID] at h
  by_cases h1 : normalizeState c = "USD"
  · rw [if_pos h1, Except.ok.injEq] at h
    subst h
    decide
  rw [if_neg h1] at h
  by_cases h2 : normalizeState c = "EUR"
  · rw [if_pos h2, Except.ok.injEq] at h
    subst h
    decide
  rw [if_neg h2] at h
  by_cases h3 : normalizeState c = "GBP"
  · rw [if_pos h3, Except.ok.injEq] at h
    subst h
    decide
  rw [if_neg h3] at h
  cases h

/-- markPayoutManualReview never touches the accounts table. -/
theorem markPayoutManualReview_accounts (db : DB) (p : Nat)
    (g r : String) :
    (markPayoutManualReview db p g r).accounts = db.accounts := by
  rw [markPayoutManualReview]
  simp only [updatePayoutStatus]
  split
  · rfl
  · split
    · rfl
    · rfl


/-- A successful transfer body debits the sender and credits the receiver
and changes no other account. -/
theorem transferBody_ok_accounts (db : DB) (fromA toA : Nat)
    (amount : Int) (ref : String) (txid d1 d2 : Nat) (p : DB × String)
    (h : transferBody db fromA toA amount ref txid d1 d2 = .ok p) :
    p.1.accounts =
      (db.accounts.map (fun a =>
        if a.id = fromA then { a with balance := a.balance + -amount }
        else a)).map (fun a =>
        if a.id = toA then { a with balance := a.balance + amount }
        else a) := by
  rw [transferBody] at h
  split at h
  · cases h
  split at h
  · cases h
  split at h
  · cases h
  split at h
  · cases h
  split at h
  · cases h
  split at h
  · cases h
  dsimp only at h
  split at h
  · cases h
  rename_i db3 htr3
  have hacc3 : db3.accounts = db.accounts :=
    (transition_preserves _ _ _ _ _ _ _ htr3).1
  simp only [createEntry, updateAccountBalance, requireExactlyOne] at h
  split at h
  · cases h
  split at h
  · cases h
  split at h
  · cases h
  rename_i db8 htr8
  cases h
  have hacc8 := (transition_preserves _ _ _ _ _ _ _ htr8).1
  dsimp only
  rw [hacc8]
  dsimp only
  rw [hacc3]


/-- A successful exchange body applies exactly the four balance updates:
sender debit, source-liquidity credit, target-liquidity debit, receiver
credit. -/
theorem transferExchangeBody_ok_accounts (db db1 : DB)
    (cmd : TransferExchangeCmd) (rate : Dec)
    (liqSourceID liqTargetID txid e1 e2 e3 e4 : Nat)
    (h : transferExchangeBody db cmd rate liqSourceID liqTargetID txid
      e1 e2 e3 e4 = .ok db1) :
    db1.accounts =
      ((((db.accounts.map (fun a =>
        if a.id = cmd.fromAccountID then
          { a with balance := a.balance +
              -(NewMoney cmd.amount cmd.fromCurrency).amount }
        else a)).map (fun a =>
        if a.id = liqSourceID then
          { a with balance := a.balance +
              (NewMoney cmd.amount cmd.fromCurrency).amount }
        else a)).map (fun a =>
        if a.id = liqTargetID then
          { a with balance := a.balance +
              -((NewMoney cmd.amount cmd.fromCurrency).convert
                  cmd.toCurrency rate).amount }
        else a)).map (fun a =>
        if a.id = cmd.toAccountID then
          { a with balance := a.balance +
              ((NewMoney cmd.amount cmd.fromCurrency).convert
                  cmd.toCurrency rate).amount }
        else a)) := by
  rw [transferExchangeBody] at h
  split at h
  · cases h
  split at h
  · cases h
  split at h
  · cases h
  split at h
  · cases h
  split at h
  · cases h
  split at h
  · cases h
  dsimp only at h
  split at h
  · cases h
  rename_i db3 htr3
  have hacc3 : db3.accounts = db.accounts :=
    (transition_preserves _ _ _ _ _ _ _ htr3).1
  simp only [updateTransactionFx, requireExactlyOne, createEntry,
    updateAccountBalance] at h
  split at h
  · cases h
  split at h
  · cases h
  split at h
  · cases h
  split at h
  · cases h
  split at h
  · cases h
  split at h
  · cases h
  rename_i db13 htr13
  cases h
  have hacc13 := (transition_preserves _ _ _ _ _ _ _ htr13).1
  rw [hacc13]
  dsimp only
  rw [hacc3]

/-- A successful payout-request body locks exactly the requested amount on
the account, which the body checked to have that amount available net of
locked funds. -/
theorem requestPayoutBody_ok_accounts (db db1 : DB)
    (req : RequestPayoutRequest) (txid pid : Nat)
    (h : requestPayoutBody db req txid pid = .ok db1) :
    ∃ accountRow, getAccount db req.accountID = some accountRow
      ∧ ¬ accountRow.balance - accountRow.lockedMicros <
          req.amountMicros
      ∧ db1.accounts = db.accounts.map (fun a =>
          if a.id = req.accountID then
            { a with lockedMicros := a.lockedMicros + req.amountMicros }
          else a) := by
  rw [requestPayoutBody] at h
  split at h
  · cases h
  rename_i accountRow hfind
  split at h
  · cases h
  rename_i hbal
  split at h
  · cases h
  simp only [lockAccountFunds, requireExactlyOne] at h
  split at h
  · cases h
  split at h
  · cases h
  rw [Except.ok.injEq] at h
  subst h
  exact ⟨accountRow, hfind, hbal, rfl⟩

/-- A successful payout finalization deducts the amount from the locked
funds and balance of the payout account and credits the resolved system
liquidity account. -/
theorem handlePayoutSuccessTx_ok_accounts (db db1 : DB)
    (payoutID accountID : Nat) (amount : Int) (currency : String)
    (transactionID : Nat) (gatewayRef : String) (eD eC : Nat)
    (h : handlePayoutSuccessTx db payoutID accountID amount currency
      transactionID gatewayRef eD eC = .ok db1) :
    ∃ sysID, getSystemAccountID currency = .ok sysID
      ∧ db1.accounts =
        (db.accounts.map (fun a =>
          if a.id = accountID then
            { a with
                lockedMicros := a.lockedMicros - amount
                balance := a.balance - amount }
          else a)).map (fun a =>
          if a.id = sysID then { a with balance := a.balance + amount }
          else a) := by
  rw [handlePayoutSuccessTx] at h
  simp only [deductLockedFunds, requireExactlyOne] at h
  split at h
  · cases h
  split at h
  · cases h
  rename_i sysID hsys
  simp only [createEntry, updateAccountBalance, requireExactlyOne] at h
  split at h
  · cases h
  split at h
  · cases h
  rename_i db5 htr5
  have hacc5 := (transition_preserves _ _ _ _ _ _ _ htr5).1
  simp only [updatePayoutStatus] at h
  split at h
  · cases h
  rw [Except.ok.injEq] at h
  subst h
  refine ⟨sysID, hsys, ?_⟩
  dsimp only
  rw [hacc5]

/-- A successful payout-failure transaction releases exactly the given
amount of locked funds on the account. -/
theorem handlePayoutFailureTx_ok_accounts (db db1 : DB)
    (payoutID accountID : Nat) (amount : Int) (reason : String)
    (h : handlePayoutFailureTx db payoutID accountID amount reason =
      .ok db1) :
    db1.accounts = db.accounts.map (fun a =>
      if a.id = accountID then
        { a with lockedMicros := a.lockedMicros - amount }
      else a) := by
  rw [handlePayoutFailureTx] at h
  simp only [releaseAccountFunds, requireExactlyOne] at h
  split at h
  · cases h
  split at h
  · cases h
  rename_i payoutRow hrow
  split at h
  · cases h
  rename_i db2 htr2
  have hacc2 := (transition_preserves _ _ _ _ _ _ _ htr2).1
  simp only [updatePayoutStatus] at h
  split at h
  · cases h
  rw [Except.ok.injEq] at h
  subst h
  dsimp only
  rw [hacc2]

/-- The payout-failure fallback either leaves the accounts alone or
safely releases the locked amount recorded on the payout row. -/
theorem updatePayoutFailed_accounts (db : DB) (payoutID : Nat)
    (reason : String) :
    (updatePayoutFailed db payoutID reason).accounts = db.accounts
    ∨ ∃ q, getPayout db payoutID = some q
      ∧ (updatePayoutFailed db payoutID reason).accounts =
        db.accounts.map (fun a =>
          if a.id = q.accountID ∧ q.amountMicros ≤ a.lockedMicros then
            { a with lockedMicros := a.lockedMicros - q.amountMicros }
          else a) := by
  rw [updatePayoutFailed]
  simp only [updatePayoutStatus, releaseAccountFundsSafe,
    updateTransactionStatus, insertAuditLog]
  split
  · exact Or.inl rfl
  · rename_i q hq
    refine Or.inr ⟨q, hq, ?_⟩
    split
    · rfl
    · rfl

/-- A successful deposit body credits the user account and debits the
resolved system liquidity account, in both the fresh and the retry
paths. -/
theorem depositTxBody_ok_accounts (db db1 : DB) (accountID : Nat)
    (amount : Int) (currency reference : String) (retry : Bool)
    (transactionID sysID : Nat) (md : Meta) (eD eC : Nat)
    (h : depositTxBody db accountID amount currency reference retry
      transactionID sysID md eD eC = .ok db1) :
    db1.accounts =
      (db.accounts.map (fun a =>
        if a.id = accountID then { a with balance := a.balance + amount }
        else a)).map (fun a =>
        if a.id = sysID then { a with balance := a.balance + -amount }
        else a) := by
  rw [depositTxBody] at h
  split at h
  · cases h
  split at h
  · cases h
  split at h
  · cases h
  rename_i db3 htr3
  have hacc3 : db3.accounts = db.accounts := by
    by_cases hre : retry = true
    · rw [if_pos hre] at htr3
      exact (transition_preserves _ _ _ _ _ _ _ htr3).1
    · rw [if_neg hre] at htr3
      exact (transition_preserves _ _ _ _ _ _ _ htr3).1
  simp only [createEntry, updateAccountBalance, requireExactlyOne] at h
  split at h
  · cases h
  split at h
  · cases h
  split at h
  · cases h
  rename_i db8 htr8
  rw [Except.ok.injEq] at h
  subst h
  have hacc8 := (transition_preserves _ _ _ _ _ _ _ htr8).1
  rw [hacc8]
  dsimp only
  rw [hacc3]

/-- The tail of the deposit webhook preserves the user-account invariant
for positive amounts: a successful run credits the user and debits a
liquidity account, and every failure path keeps or restores the
pre-transaction accounts. -/
theorem depositProcess_preserves (db : DB) (accountID : Nat)
    (amount : Int) (currency reference : String) (retry : Bool)
    (transactionID eD eC : Nat) (cf : Option SvcError)
    (hamt : 0 < amount) (hinv : userInvariant db) :
    userInvariant (depositProcess db accountID amount currency reference
      retry transactionID eD eC cf).1 := by
  rw [depositProcess]
  split
  · exact hinv
  rename_i sysID hsys
  dsimp only
  split
  · rename_i db1 hres
    split at hres
    · cases hres
    rename_i hbody
    split at hres
    · cases hres
    cases hres
    show accountsInvariant db1.accounts
    rw [depositTxBody_ok_accounts _ _ _ _ _ _ _ _ _ _ _ _ hbody]
    exact accountsInvariant_liq_credit _ _ _
      (getSystemAccountID_liquidity _ _ hsys)
      (accountsInvariant_credit _ _ _ (le_of_lt hamt) hinv)
  · rename_i e hres
    split
    · exact hinv
    · split
      · rename_i dbf htrf
        show accountsInvariant dbf.accounts
        rw [(transition_preserves _ _ _ _ _ _ _ htrf).1]
        exact hinv
      · exact hinv
      · exact hinv


/-- A successful payout-request body preserves the invariant: the locked
increase is covered by the availability check on the unique account
row. -/
theorem requestPayoutBody_preserves (db dbB : DB)
    (req : RequestPayoutRequest) (txid pid : Nat)
    (hpk : db.accounts.Pairwise (fun a b => a.id ≠ b.id))
    (hinv : userInvariant db)
    (hbody : requestPayoutBody db req txid pid = .ok dbB) :
    accountsInvariant dbB.accounts := by
  obtain ⟨accountRow, hfind, hnlt, hacc⟩ :=
    requestPayoutBody_ok_accounts db dbB req txid pid hbody
  rw [hacc]
  refine accountsInvariant_lock _ _ _ ?_ hinv
  intro a ha hai
  have hae : a = accountRow :=
    account_mem_eq_find db.accounts req.accountID accountRow a hpk
      hfind ha hai
  subst hae
  omega

/-- Claim C2 (amended): every core operation preserves the user-account
invariant locked_micros ≤ balance_micros outside liquidity accounts,
given the primary-key uniqueness of account ids and the amended
preconditions of opPrecond: transfer and exchange need the sender amount
available net of locked funds (the code checks only the gross balance),
exchange needs a nonnegative target amount, and payout failure needs
nonnegative amounts. The unamended claim is refuted by
transfer_breaks_locked_invariant. -/
theorem core_ops_preserve_user_invariant (db : DB) (op : CoreOp)
    (hpk : db.accounts.Pairwise (fun a b => a.id ≠ b.id))
    (hpre : opPrecond db op) (hinv : userInvariant db) :
    userInvariant (runOp db op) := by
  cases op with
  | transferOp fromA toA amount ref txid d1 d2 =>
    rcases hres : transfer db fromA toA amount ref txid d1 d2
      with e | ⟨db1, t1⟩
    · simp only [runOp, hres]
      exact hinv
    · simp only [runOp, hres]
      rw [transfer] at hres
      by_cases h1 : amount ≤ 0
      · rw [if_pos h1] at hres; cases hres
      rw [if_neg h1] at hres
      by_cases h2 : ref = ""
      · rw [if_pos h2] at hres; cases hres
      rw [if_neg h2] at hres
      by_cases h3 : fromA = toA
      · rw [if_pos h3] at hres; cases hres
      rw [if_neg h3] at hres
      rcases hchk : checkTransactionIdempotency db ref with _ | t0
      · rw [hchk] at hres
        rcases hbody : transferBody db fromA toA amount ref txid d1 d2
          with e | ⟨dbB, cur⟩
        · rw [hbody] at hres; cases hres
        rw [hbody] at hres
        dsimp only at hres
        rw [Except.ok.injEq, Prod.mk.injEq] at hres
        obtain ⟨hdb, -⟩ := hres
        subst hdb
        have hacc : dbB.accounts = _ :=
          transferBody_ok_accounts db fromA toA amount ref txid d1 d2
            (dbB, cur) hbody
        show accountsInvariant dbB.accounts
        rw [hacc]
        exact accountsInvariant_credit _ _ _ (by omega)
          (accountsInvariant_debit _ _ _ hpre hinv)
      · rw [hchk] at hres
        dsimp only at hres
        rw [Except.ok.injEq, Prod.mk.injEq] at hres
        obtain ⟨hdb, -⟩ := hres
        subst hdb
        exact hinv
  | exchangeOp cmd rate txid e1 e2 e3 e4 =>
    rcases hres : transferExchange db cmd rate txid e1 e2 e3 e4
      with e | ⟨db1, t1⟩
    · simp only [runOp, hres]
      exact hinv
    · simp only [runOp, hres]
      rw [transferExchange] at hres
      by_cases h1 : cmd.amount ≤ 0
      · rw [if_pos h1] at hres; cases hres
      rw [if_neg h1] at hres
      by_cases h2 : cmd.referenceID = ""
      · rw [if_pos h2] at hres; cases hres
      rw [if_neg h2] at hres
      by_cases h3 : cmd.fromAccountID = cmd.toAccountID
      · rw [if_pos h3] at hres; cases hres
      rw [if_neg h3] at hres
      by_cases h4 : cmd.fromCurrency = cmd.toCurrency
      · rw [if_pos h4] at hres; cases hres
      rw [if_neg h4] at hres
      rcases hchk : checkTransactionIdempotency db cmd.referenceID
        with _ | t0
      · rw [hchk] at hres
        rcases hsysS : getSystemAccountID cmd.fromCurrency
          with e | liqS
        · rw [hsysS] at hres; cases hres
        rw [hsysS] at hres
        rcases hsysT : getSystemAccountID cmd.toCurrency with e | liqT
        · rw [hsysT] at hres; cases hres
        rw [hsysT] at hres
        dsimp only at hres
        rcases hbody : transferExchangeBody db cmd rate liqS liqT txid
          e1 e2 e3 e4 with e | dbB
        · rw [hbody] at hres; cases hres
        rw [hbody] at hres
        dsimp only at hres
        rw [Except.ok.injEq, Prod.mk.injEq] at hres
        obtain ⟨hdb, -⟩ := hres
        subst hdb
        have hacc : dbB.accounts = _ :=
          transferExchangeBody_ok_accounts db dbB cmd rate liqS liqT
            txid e1 e2 e3 e4 hbody
        show accountsInvariant dbB.accounts
        rw [hacc]
        exact accountsInvariant_credit _ _ _ hpre.2
          (accountsInvariant_liq_credit _ _ _
            (getSystemAccountID_liquidity _ _ hsysT)
            (accountsInvariant_liq_credit _ _ _
              (getSystemAccountID_liquidity _ _ hsysS)
              (accountsInvariant_debit _ _ _ hpre.1 hinv)))
      · rw [hchk] at hres
        dsimp only at hres
        rw [Except.ok.injEq, Prod.mk.injEq] at hres
        obtain ⟨hdb, -⟩ := hres
        subst hdb
        exact hinv
  | requestPayoutOp req txid pid =>
    rcases hres : requestPayout db req txid pid with e | ⟨db1, resp⟩
    · simp only [runOp, hres]
      exact hinv
    · simp only [runOp, hres]
      rw [requestPayout] at hres
      by_cases h1 : req.amountMicros ≤ 0
      · rw [if_pos h1] at hres; cases hres
      rw [if_neg h1] at hres
      by_cases h2 : req.referenceID = ""
      · rw [if_pos h2] at hres; cases hres
      rw [if_neg h2] at hres
      by_cases h3 : req.destIBAN = ""
      · rw [if_pos h3] at hres; cases hres
      rw [if_neg h3] at hres
      by_cases h4 : req.destName = ""
      · rw [if_pos h4] at hres; cases hres
      rw [if_neg h4] at hres
      rcases hchk : checkTransactionIdempotency db req.referenceID
        with _ | t0
      · rw [hchk] at hres
        rcases hbody : requestPayoutBody db req txid pid with e | dbB
        · rw [hbody] at hres; cases hres
        rw [hbody] at hres
        dsimp only at hres
        rw [Except.ok.injEq, Prod.mk.injEq] at hres
        obtain ⟨hdb, -⟩ := hres
        subst hdb
        exact requestPayoutBody_preserves db dbB req txid pid hpk hinv
          hbody
      · rw [hchk] at hres
        dsimp only at hres
        rcases hgp : getPayoutByTransactionID db t0.id with _ | prow
        · rw [hgp] at hres
          rcases hbody : requestPayoutBody db req txid pid with e | dbB
          · rw [hbody] at hres; cases hres
          rw [hbody] at hres
          dsimp only at hres
          rw [Except.ok.injEq, Prod.mk.injEq] at hres
          obtain ⟨hdb, -⟩ := hres
          subst hdb
          exact requestPayoutBody_preserves db dbB req txid pid hpk
            hinv hbody
        · rw [hgp] at hres
          dsimp only at hres
          rw [Except.ok.injEq, Prod.mk.injEq] at hres
          obtain ⟨hdb, -⟩ := hres
          subst hdb
          exact hinv
  | payoutSuccessOp payoutID accountID amount currency transactionID
      gatewayRef eD eC commitFailure =>
    simp only [runOp, handlePayoutSuccess]
    rcases hbody : handlePayoutSuccessTx db payoutID accountID amount
        currency transactionID gatewayRef eD eC with e | dbB
    · dsimp only
      show accountsInvariant (markPayoutManualReview db payoutID
        gatewayRef (errMessage e)).accounts
      rw [markPayoutManualReview_accounts]
      exact hinv
    · dsimp only
      rcases commitFailure with _ | cf
      · dsimp only
        obtain ⟨sysID, hsys, hacc⟩ :=
          handlePayoutSuccessTx_ok_accounts db dbB payoutID accountID
            amount currency transactionID gatewayRef eD eC hbody
        show accountsInvariant dbB.accounts
        rw [hacc]
        exact accountsInvariant_liq_credit _ _ _
          (getSystemAccountID_liquidity _ _ hsys)
          (accountsInvariant_deduct _ _ _ hinv)
      · dsimp only
        show accountsInvariant (markPayoutManualReview db payoutID
          gatewayRef (errMessage cf)).accounts
        rw [markPayoutManualReview_accounts]
        exact hinv
  | payoutFailureOp payoutID accountID amount reason =>
    simp only [runOp, handlePayoutFailure]
    rcases hbody : handlePayoutFailureTx db payoutID accountID amount
        reason with e | dbB
    · dsimp only
      rcases updatePayoutFailed_accounts db payoutID
          (errMessage e ++ ": " ++ reason) with hacc | ⟨q, hq, hacc⟩
      · show accountsInvariant (updatePayoutFailed db payoutID
          (errMessage e ++ ": " ++ reason)).accounts
        rw [hacc]
        exact hinv
      · show accountsInvariant (updatePayoutFailed db payoutID
          (errMessage e ++ ": " ++ reason)).accounts
        rw [hacc]
        exact accountsInvariant_releaseSafe _ _ _
          (hpre.2 q (List.mem_of_find?_eq_some hq)) hinv
    · dsimp only
      show accountsInvariant dbB.accounts
      rw [handlePayoutFailureTx_ok_accounts db dbB payoutID accountID
        amount reason hbody]
      exact accountsInvariant_release _ _ _ hpre.1 hinv
  | depositOp payload freshTxID eD eC commitFailure =>
    simp only [runOp, handleDepositWebhook]
    by_cases h1 : payload.amountMicros ≤ 0
    · rw [if_pos h1]
      exact hinv
    rw [if_neg h1]
    by_cases h2 : String.mk (strTrim payload.reference) = ""
    · rw [if_pos h2]
      exact hinv
    rw [if_neg h2]
    by_cases h3 : isValidCurrency (normalizeState payload.currency) =
      true
    case neg =>
      rw [if_pos h3]
      exact hinv
    rw [if_neg (not_not_intro h3)]
    rcases hchk : checkTransactionIdempotency db
        (String.mk (strTrim payload.reference)) with _ | t0
    · dsimp only
      exact depositProcess_preserves _ _ _ _ _ _ _ _ _ _ (by omega)
        hinv
    · dsimp only
      by_cases hmis : t0.type ≠ TxTypeDeposit ∨
          t0.amount ≠ payload.amountMicros ∨
          t0.currency ≠ normalizeState payload.currency
      · rw [if_pos hmis]
        exact hinv
      rw [if_neg hmis]
      by_cases hc1 : strUpper t0.status = TxStatusCompleted
      · rw [if_pos hc1]
        exact hinv
      rw [if_neg hc1]
      by_cases hc2 : strUpper t0.status = TxStatusPending ∨
          strUpper t0.status = TxStatusProcessing
      · rw [if_pos hc2]
        exact hinv
      rw [if_neg hc2]
      by_cases hc3 : strUpper t0.status = TxStatusFailed
      · rw [if_pos hc3]
        exact depositProcess_preserves _ _ _ _ _ _ _ _ _ _ (by omega)
          hinv
      · rw [if_neg hc3]
        exact hinv

/-- Counterexample input for the literal claim C2: the sender satisfies
locked ≤ balance with the whole balance locked for a pending payout. -/
def cexDB : DB :=
  { accounts :=
      [{ id := 1, currency := "USD", balance := 100,
         lockedMicros := 100 },
       { id := 2, currency := "USD", balance := 0, lockedMicros := 0 }],
    transactions := [], entries := [], payouts := [], auditLog := [] }

/-- Counterexample to the literal claim C2: the invariant holds on cexDB,
the transfer of the fully locked balance of account 1 nevertheless
succeeds (Transfer compares the amount only against the gross balance),
and afterwards account 1 holds locked_micros 100 against balance 0 — the
invariant is broken by a successful core operation. -/
theorem transfer_breaks_locked_invariant :
    (∀ a ∈ cexDB.accounts, isLiquidityAccount a.id = false →
      a.lockedMicros ≤ a.balance)
    ∧ (∃ db1 t1, transfer cexDB 1 2 100 "cx" 10 11 12 = .ok (db1, t1))
    ∧ ¬ ∀ a ∈ (runOp cexDB
        (CoreOp.transferOp 1 2 100 "cx" 10 11 12)).accounts,
      isLiquidityAccount a.id = false → a.lockedMicros ≤ a.balance := by
  refine ⟨by decide, ⟨_, _, rfl⟩, by decide⟩

/-- Witness database for the amended C2: the sender has 300 available net
of 200 locked. -/
def c2DB : DB :=
  { accounts :=
      [{ id := 1, currency := "USD", balance := 1000,
         lockedMicros := 200 },
       { id := 2, currency := "USD", balance := 50, lockedMicros := 0 }],
    transactions := [], entries := [], payouts := [], auditLog := [] }

/-- Witness for the amended C2: a transfer within the available balance
keeps the invariant. -/
theorem core_ops_preserve_user_invariant_witness :
    userInvariant (runOp c2DB
      (CoreOp.transferOp 1 2 300 "w2" 60 61 62)) :=
  core_ops_preserve_user_invariant c2DB
    (CoreOp.transferOp 1 2 300 "w2" 60 61 62)
    (by decide)
    (show ∀ a ∈ c2DB.accounts, a.id = 1 →
        (300 : Int) ≤ a.balance - a.lockedMicros from by decide)
    (show ∀ a ∈ c2DB.accounts, isLiquidityAccount a.id = false →
        a.lockedMicros ≤ a.balance from by decide)

end PayMC
